import Mathlib

/-! Trust and access enforcement of the infra registry

A shallow embedding of the password policy evaluator and the credential store
(`internal/access/credential.go`), the initial setup (`internal/access/setup.go`), the
encryption key manager, `Run` and the secret references (`internal/server/server.go`), the
API error translation, the access key handlers and `cleanupURL` (`internal/server/api.go`),
the kubeconfig update (`internal/cmd/cmd.go`), the connector token verifier and the
certificate cache, with the properties the specification states about them.

Conventions of the embedding:

* a Go `string` is a Lean `String` (valid UTF-8), and `for _, r := range s`
  visits `s.data`, one `Char` per code point;
* a Go `int` is an `Int`; the only arithmetic is the rune counter of
  `hasMinimumCount`, bounded by the length of the password, so it never wraps;
  the conversion `int32(code)` of `sendAPIError` is explicit;
* a Go `error` is an `Option Err` (`none` is `nil`), a `(T, error)` pair is an
  `Except Err T`;
* the request's transaction and the access key it was authenticated with are
  mutable in Go; here every operation returns the `RequestContext` it leaves
  behind;
* what lives outside the repository (package `unicode`, `bcrypt`, `os`, the
  entropy source, storage failures) and the constants declared outside these
  files are fields of `Env`, and every theorem holds for all environments.
-/

namespace Infra

/-! ## Errors -/

/-- Error values. `wrapf format inner` is `fmt.Errorf(format, inner)` with a single
`%w` verb; `validation` is `validate.Error`, a map from field name to messages,
kept as an association list; `authorization` is the classified error of a failed
role check; `InvalidValidationError` is the nil `*validator.InvalidValidationError`;
`ErrExpired` is the "token is expired" error of the token library. -/
inductive Err where
  | ErrNotFound
  | ErrBadRequest
  | ErrForbidden
  | ErrDuplicate
  | ErrUnauthorized
  | InvalidValidationError
  | ErrExpired
  | validation (fields : List (String × List String))
  | authorization (resource operation : String) (neededRoles : List String)
  | wrapf (format : String) (inner : Err)
  | external (msg : String)
  deriving DecidableEq, Repr

/-- The `errors.Is` test: the error itself or an error it wraps equals `target`. -/
def errorsIs : Err → Err → Bool
  | .wrapf f inner, target => (Err.wrapf f inner == target) || errorsIs inner target
  | e, target => e == target

/-! ## Data model -/

/-- Password policy minimums and the setup flag held by `models.Settings`. -/
structure Settings where
  LengthMin : Int := 0
  LowercaseMin : Int := 0
  UppercaseMin : Int := 0
  NumberMin : Int := 0
  SymbolMin : Int := 0
  SetupRequired : Bool := false
  deriving DecidableEq, Repr

/-- The `models.Identity` fields the credential operations read. -/
structure Identity where
  ID : Nat
  Name : String := ""
  deriving DecidableEq, Repr

/-- A `models.Credential`: identity reference, password hash, one-time flag. -/
structure Credential where
  IdentityID : Nat
  PasswordHash : List Nat
  OneTimePassword : Bool
  deriving DecidableEq, Repr

/-- The `models.AccessKey` fields the credential operations and `Setup` read and write.
`IssuedFor` is the ID of the owner; `Setup` stores the polymorphic identifier of a machine,
kept as the ID of the machine with `IssuedForMachine` set. `ExpiresAt` and `CreatedAt` are
in nanoseconds. `Permissions` is the space-joined permission list of the API handlers. -/
structure AccessKey where
  ID : Nat
  IssuedFor : Nat
  Scopes : List String
  Name : String := ""
  IssuedForMachine : Bool := false
  ExpiresAt : Int := 0
  Permissions : String := ""
  CreatedAt : Int := 0
  deriving DecidableEq, Repr

/-- A `models.Machine`, the machine identity `Setup` creates. `LastSeenAt` is in
nanoseconds. -/
structure Machine where
  ID : Nat := 0
  Name : String
  Description : String
  Permissions : String
  LastSeenAt : Int
  deriving DecidableEq, Repr

/-- Subject of a grant: an identity or a group. -/
inductive Subject where
  | identity (id : Nat)
  | group (id : Nat)
  deriving DecidableEq, Repr

/-- A grant tuple (subject, resource, privilege). -/
structure Grant where
  Subject : Subject
  Resource : String
  Privilege : String
  deriving DecidableEq, Repr

/-- A `models.ProviderUser` row: which identity is known to which provider. -/
structure ProviderUser where
  ProviderID : Nat
  IdentityID : Nat
  deriving DecidableEq, Repr

/-- A `models.EncryptionKey`: the envelope record of a data key. -/
structure EncryptionKey where
  Name : String
  Encrypted : List Nat
  Algorithm : String
  RootKeyID : String
  deriving DecidableEq, Repr

/-- Content of the database as seen through one transaction. -/
structure DB where
  settings : Settings := {}
  credentials : List Credential := []
  accessKeys : List AccessKey := []
  grants : List Grant := []
  groupMembers : List (Nat × Nat) := []
  infraProvider : Nat := 0
  providerUsers : List ProviderUser := []
  encryptionKeys : List EncryptionKey := []
  machines : List Machine := []
  deriving DecidableEq, Repr

/-- `RequestContext.Authenticated`: the principal of the request and the access
key it presented. Both are pointers in Go and may be nil. -/
structure Authenticated where
  User : Option Identity := none
  AccessKey : Option AccessKey := none
  deriving DecidableEq, Repr

/-- What `GetRequestContext(c)` yields: the transaction and the principal. -/
structure RequestContext where
  DBTxn : DB := {}
  Authenticated : Authenticated := {}
  deriving DecidableEq, Repr

/-! ## Environment -/

/-- The storage calls of package `data` that the credential code makes. -/
inductive DBOp where
  | GetSettings
  | GetCredentialByUserID
  | CreateCredential
  | UpdateCredential
  | UpdateAccessKey
  | CreateProviderUser
  | CreateMachine
  | CreateAccessKey
  | SaveSettings
  | ListAccessKeys
  deriving DecidableEq, Repr

/-- The storage calls of package `data` that the encryption key manager makes. -/
inductive KeyStoreOp where
  | GetEncryptionKey
  | CreateEncryptionKey
  deriving DecidableEq, Repr

/-- An opened deny-list file: `lines` are the tokens a `bufio.Scanner` with
`bufio.ScanLines` yields for its content, in order; `closeErr` is what
`file.Close()` returns. -/
structure File where
  lines : List String
  closeErr : Option Err := none

/-- Everything the code reaches outside the files embedded here. -/
structure Env where
  /-- Go `unicode.IsLower`. -/
  IsLower : Char → Bool
  /-- Go `unicode.IsUpper`. -/
  IsUpper : Char → Bool
  /-- Go `unicode.IsDigit`. -/
  IsDigit : Char → Bool
  /-- Result of `bcrypt.GenerateFromPassword(password, bcrypt.DefaultCost)` in this request. -/
  GenerateFromPassword : String → Except Err (List Nat)
  /-- Result of `bcrypt.CompareHashAndPassword(hash, password)`; `none` is a match. -/
  CompareHashAndPassword : List Nat → String → Option Err
  /-- Go `os.Getenv`. -/
  Getenv : String → String
  /-- Go `os.Open`. -/
  Open : String → Except Err File
  /-- Successive draws of `crypto/rand`, each already reduced below the bound asked for;
  `none` is a failing read of the entropy source. -/
  randInt : Nat → Nat → Option Nat
  /-- Storage failure injected into a call of package `data`, if any. -/
  fault : DBOp → Option Err
  /-- Constant `models.InfraAdminRole`. -/
  InfraAdminRole : String
  /-- Constant `models.ScopePasswordReset`. -/
  ScopePasswordReset : String
  /-- Constant `generate.CharsetPassword`. -/
  CharsetPassword : String
  /-- Failure of the storage behind a call on the encryption keys, if any, with its text. Such
  a failure is an I/O error; `ErrNotFound` is returned for an absent record only. -/
  keyFault : KeyStoreOp → Option String := fun _ => none
  /-- Successive readings of `time.Now()`, in nanoseconds. -/
  Now : Nat → Int := fun _ => 0
  /-- Successive identifiers handed out by the storage layer. -/
  NewID : Nat → Nat := fun n => n + 1
  /-- The raw secret `data.CreateAccessKey` generates for a new access key. -/
  AccessKeySecret : String := ""
  /-- Constant `PermissionAllInfra` of package `access`. -/
  PermissionAllInfra : String := ""

/-! ## Storage (package `data`)

The package is not under src/. Its calls are modelled on the data model of the
specification; each may also fail with the storage failure the environment injects,
and a failed call leaves the content as it was. -/

namespace data

/-- Modelled from the spec: `data.GetSettings` is not under src/. Settings are "a
process-wide singleton"; the read returns it unless storage fails. -/
def GetSettings (env : Env) (db : DB) : Except Err Settings :=
  match env.fault .GetSettings with
  | some err => .error err
  | none => .ok db.settings

/-- Modelled from the spec: `data.GetCredentialByUserID` is not under src/. There is
"exactly one (or zero) live record per Identity"; the absent record is `ErrNotFound`. -/
def GetCredentialByUserID (env : Env) (db : DB) (userID : Nat) : Except Err Credential :=
  match env.fault .GetCredentialByUserID with
  | some err => .error err
  | none =>
    match db.credentials.find? (fun c => c.IdentityID == userID) with
    | some c => .ok c
    | none => .error .ErrNotFound

/-- Modelled from the spec: `data.CreateCredential` is not under src/. It adds a record;
a second live record for one identity is refused ("exactly one (or zero) live record per
Identity", error class `Duplicate`). -/
def CreateCredential (env : Env) (db : DB) (credential : Credential) : Except Err DB :=
  match env.fault .CreateCredential with
  | some err => .error err
  | none =>
    if db.credentials.any (fun c => c.IdentityID == credential.IdentityID) then
      .error .ErrDuplicate
    else .ok { db with credentials := db.credentials ++ [credential] }

/-- Modelled from the spec: `data.UpdateCredential` is not under src/. "Existing
credentials are overwritten in place": the record of the identity is replaced. -/
def UpdateCredential (env : Env) (db : DB) (credential : Credential) : Except Err DB :=
  match env.fault .UpdateCredential with
  | some err => .error err
  | none =>
    let replace := fun (c : Credential) =>
      if c.IdentityID == credential.IdentityID then credential else c
    .ok { db with credentials := db.credentials.map replace }

/-- Modelled from the spec: `data.UpdateAccessKey` is not under src/. The stored key with
the same ID is replaced. -/
def UpdateAccessKey (env : Env) (db : DB) (key : AccessKey) : Except Err DB :=
  match env.fault .UpdateAccessKey with
  | some err => .error err
  | none =>
    .ok { db with accessKeys := db.accessKeys.map (fun k => if k.ID == key.ID then key else k) }

/-- Modelled from the spec: `data.InfraProvider` is not under src/. It is the built-in
provider of the registry. -/
def InfraProvider (db : DB) : Nat :=
  db.infraProvider

/-- Modelled from the spec: `data.CreateProviderUser` is not under src/. It records that the
identity is known to the provider, "if it's missing" (comment in `UpdateCredential`). -/
def CreateProviderUser (env : Env) (db : DB) (provider : Nat) (ident : Identity) :
    Except Err (ProviderUser × DB) :=
  match env.fault .CreateProviderUser with
  | some err => .error err
  | none =>
    let pu : ProviderUser := { ProviderID := provider, IdentityID := ident.ID }
    if db.providerUsers.contains pu then .ok (pu, db)
    else .ok (pu, { db with providerUsers := db.providerUsers ++ [pu] })

end data

/-! ## Authorization (grant engine)

Functions of package `access` that are not under src/. -/

/-- Modelled from the spec: the role check of `IsAuthorized` is not under src/. The principal
is expanded "to {principal} ∪ {groups the principal belongs to}" and holds the role when
"any (subject, "infra", requiredRole) grant exists". -/
def holdsRole (db : DB) (principal : Identity) (requiredRole : String) : Bool :=
  db.grants.any (fun g =>
    g.Resource == "infra" && g.Privilege == requiredRole &&
      (match g.Subject with
       | .identity id => id == principal.ID
       | .group gid => db.groupMembers.contains (gid, principal.ID)))

/-- Modelled from the spec: `IsAuthorized` is not under src/.
`IsAuthorized(context, requiredRole) -> nil | ForbiddenError`. -/
def IsAuthorized (rCtx : RequestContext) (requiredRole : String) : Option Err :=
  match rCtx.Authenticated.User with
  | none => some .ErrForbidden
  | some principal =>
    if holdsRole rCtx.DBTxn principal requiredRole then none else some .ErrForbidden

/-- Modelled from the spec: `RequireInfraRole` is not under src/. It "returns a ready-to-use
transactional handle bound to the resolved principal, or a classified error". -/
def RequireInfraRole (rCtx : RequestContext) (role : String) : Except Err DB :=
  match IsAuthorized rCtx role with
  | some err => .error err
  | none => .ok rCtx.DBTxn

/-- Modelled from the spec: `HandleAuthErr` is not under src/. A failed role check becomes the
classified authorization error for the resource, operation and role of the call site; any
other error is passed on. -/
def HandleAuthErr (err : Err) (resource operation role : String) : Err :=
  if errorsIs err .ErrForbidden then .authorization resource operation [role] else err

/-- Modelled from the spec: `isIdentitySelf` is not under src/. The caller "is updating their
own credential" when the authenticated user is the identity with the given ID. -/
def isIdentitySelf (rCtx : RequestContext) (byID : Nat) : Bool :=
  match rCtx.Authenticated.User with
  | none => false
  | some identity => identity.ID == byID

/-! ## Random passwords (package `generate`) -/

/-- Draws characters number `i`, `i + 1`, ... of a random string of `n` more characters. -/
def cryptoRandomFrom (env : Env) (charset : List Char) (i : Nat) : Nat → Except Err (List Char)
  | 0 => .ok []
  | n + 1 =>
    match env.randInt i charset.length with
    | none => .error (.external "crypto/rand: read failed")
    | some k =>
      match charset.get? k with
      | none => .error (.external "crypto/rand: index out of range")
      | some ch =>
        match cryptoRandomFrom env charset (i + 1) n with
        | .error err => .error err
        | .ok rest => .ok (ch :: rest)

/-- Modelled from the spec: `generate.CryptoRandom` is not under src/. It yields "a
cryptographically random 12-character password from a restricted charset": `n` characters,
each drawn from `charset`, or the failure of the entropy source. -/
def CryptoRandom (env : Env) (n : Nat) (charset : String) : Except Err String :=
  match cryptoRandomFrom env charset.data 0 n with
  | .error err => .error err
  | .ok chars => .ok ⟨chars⟩

/-! ## Password policy evaluator -/

/-- Source `isSymbol`: the OWASP list of special characters, four ASCII ranges. -/
def isSymbol (r : Char) : Bool :=
  (r.toNat ≥ 0x0020 && r.toNat ≤ 0x002F) || (r.toNat ≥ 0x003A && r.toNat ≤ 0x0040) ||
    (r.toNat ≥ 0x005B && r.toNat ≤ 0x0060) || (r.toNat ≥ 0x007B && r.toNat ≤ 0x007E)

/-- Source `hasMinimumCount`: count the runes accepted by `minCheck`, compare with `min`. -/
def hasMinimumCount (password : String) (min : Int) (minCheck : Char → Bool) : Bool :=
  let count : Int := password.data.foldl (fun count r => if minCheck r then count + 1 else count) 0
  decide (count ≥ min)

/-- Expansion of a format string holding one `%d` verb, as `fmt.Sprintf(format, n)`. -/
def sprintfChars (n : Int) : List Char → List Char
  | [] => []
  | c :: rest =>
    match c, rest with
    | '%', 'd' :: rest2 => (toString n).data ++ rest2
    | _, _ => c :: sprintfChars n rest

/-- Go `fmt.Sprintf(format, n)` for a format with one `%d` verb. -/
def Sprintf (format : String) (n : Int) : String :=
  ⟨sprintfChars n format.data⟩

/-- One row of the `requirements` table of `checkPasswordRequirements`. -/
structure Requirement where
  minCount : Int
  countFunc : Char → Bool
  singularError : String
  pluralError : String

/-- The `requirements` table of `checkPasswordRequirements`, in source order. -/
def requirements (env : Env) (settings : Settings) : List Requirement :=
  [ ⟨settings.LengthMin, fun _ => true, "%d character", "%d characters"⟩,
    ⟨settings.LowercaseMin, env.IsLower, "%d lowercase letter", "%d lowercase letters"⟩,
    ⟨settings.UppercaseMin, env.IsUpper, "%d uppercase letter", "%d uppercase letters"⟩,
    ⟨settings.NumberMin, env.IsDigit, "%d number", "%d numbers"⟩,
    ⟨settings.SymbolMin, isSymbol, "%d symbol", "%d symbols"⟩ ]

/-- One iteration of the loop over `requirements`: the state is `(valid, requirementError)`. -/
def requirementStep (password : String) (st : Bool × List String) (r : Requirement) :
    Bool × List String :=
  let valid := if !hasMinimumCount password r.minCount r.countFunc then false else st.1
  let requirementError :=
    if r.minCount == 1 then st.2 ++ [Sprintf r.singularError r.minCount]
    else if r.minCount > 1 then st.2 ++ [Sprintf r.pluralError r.minCount]
    else st.2
  (valid, requirementError)

/-- Source `checkPasswordRequirements`. -/
def checkPasswordRequirements (env : Env) (db : DB) (password : String) : Option Err :=
  match data.GetSettings env db with
  | .error err => some err
  | .ok settings =>
    let st := (requirements env settings).foldl (requirementStep password) (true, [])
    if !st.1 then some (.validation [("password", st.2)]) else none

/-! ## Deny-list of common passwords -/

/-- The loop `for scan.Scan() { if scan.Text() == password ... }`: whether a scanned line
equals the password. -/
def scanFinds (password : String) : List String → Bool
  | [] => false
  | text :: rest => if text == password then true else scanFinds password rest

/-- Source `checkBadPasswords`. -/
def checkBadPasswords (env : Env) (password : String) : Option Err :=
  let badPasswordsFile := env.Getenv "INFRA_SERVER_BAD_PASSWORDS_FILE"
  if badPasswordsFile == "" then none
  else
    match env.Open badPasswordsFile with
    | .error err => some err
    | .ok file =>
      if scanFinds password file.lines then
        some (.wrapf "%w: cannot use a common password" .ErrBadRequest)
      else
        match file.closeErr with
        | some err => some err
        | none => none

/-! ## Credential store -/

/-- Source `sliceWithoutElement`. -/
def sliceWithoutElement (s : List String) (without : String) : List String :=
  s.foldl (fun result v => if v != without then result ++ [v] else result) []

/-- Source `updateCredential`. The second component is the request context left behind. -/
def updateCredential (env : Env) (rCtx : RequestContext) (user : Identity)
    (newPassword : String) (isSelf : Bool) : Option Err × RequestContext :=
  let db := rCtx.DBTxn
  match checkPasswordRequirements env db newPassword with
  | some err => (some err, rCtx)
  | none =>
  match checkBadPasswords env newPassword with
  | some err => (some err, rCtx)
  | none =>
  match env.GenerateFromPassword newPassword with
  | .error err => (some (.wrapf "hash: %w" err), rCtx)
  | .ok hash =>
  match data.GetCredentialByUserID env db user.ID with
  | .error err =>
    if errorsIs err .ErrNotFound && !isSelf then
      match data.CreateCredential env db
          { IdentityID := user.ID, PasswordHash := hash, OneTimePassword := true } with
      | .error err => (some (.wrapf "creating credentials: %w" err), rCtx)
      | .ok db1 => (none, { rCtx with DBTxn := db1 })
    else (some (.wrapf "existing credential: %w" err), rCtx)
  | .ok userCredential =>
    let userCredential : Credential :=
      { userCredential with PasswordHash := hash, OneTimePassword := !isSelf }
    match data.UpdateCredential env db userCredential with
    | .error err => (some (.wrapf "saving credentials: %w" err), rCtx)
    | .ok db1 =>
      let rCtx1 : RequestContext := { rCtx with DBTxn := db1 }
      if isSelf then
        match rCtx1.Authenticated.AccessKey with
        | some accessKey =>
          let accessKey : AccessKey :=
            { accessKey with Scopes := sliceWithoutElement accessKey.Scopes env.ScopePasswordReset }
          let rCtx2 : RequestContext :=
            { rCtx1 with Authenticated := { rCtx1.Authenticated with AccessKey := some accessKey } }
          match data.UpdateAccessKey env db1 accessKey with
          | .error err => (some (.wrapf "updating access key: %w" err), rCtx2)
          | .ok db2 => (none, { rCtx2 with DBTxn := db2 })
        | none => (none, rCtx1)
      else (none, rCtx1)

/-- Source `UpdateCredential`. The second component is the request context left behind. -/
def UpdateCredential (env : Env) (rCtx : RequestContext) (user : Identity)
    (oldPassword newPassword : String) : Option Err × RequestContext :=
  let isSelf := isIdentitySelf rCtx user.ID
  match (if !isSelf then IsAuthorized rCtx env.InfraAdminRole else none) with
  | some err => (some (HandleAuthErr err "user" "update" env.InfraAdminRole), rCtx)
  | none =>
  let oldPasswordCheck : Option Err :=
    if isSelf then
      if oldPassword == "" then some (.validation [("oldPassword", ["is required"])])
      else
        match data.GetCredentialByUserID env rCtx.DBTxn user.ID with
        | .error err => some (.wrapf "existing credential: %w" err)
        | .ok userCredential =>
          match env.CompareHashAndPassword userCredential.PasswordHash oldPassword with
          | some _ => some (.validation [("oldPassword", ["invalid oldPassword"])])
          | none => none
    else none
  match oldPasswordCheck with
  | some err => (some err, rCtx)
  | none =>
  match updateCredential env rCtx user newPassword isSelf with
  | (some err, rCtx1) => (some err, rCtx1)
  | (none, rCtx1) =>
    if !isSelf then
      match data.CreateProviderUser env rCtx1.DBTxn (data.InfraProvider rCtx1.DBTxn) user with
      | .error _ => (none, rCtx1)
      | .ok (_, db2) => (none, { rCtx1 with DBTxn := db2 })
    else (none, rCtx1)

/-- Source `CreateCredential`. The second component is the request context left behind. -/
def CreateCredential (env : Env) (rCtx : RequestContext) (user : Identity) :
    Except Err String × RequestContext :=
  match RequireInfraRole rCtx env.InfraAdminRole with
  | .error err => (.error (HandleAuthErr err "user" "create" env.InfraAdminRole), rCtx)
  | .ok db =>
  match CryptoRandom env 12 env.CharsetPassword with
  | .error err => (.error (.wrapf "generate: %w" err), rCtx)
  | .ok tmpPassword =>
  match env.GenerateFromPassword tmpPassword with
  | .error err => (.error (.wrapf "hash: %w" err), rCtx)
  | .ok hash =>
  match data.CreateCredential env db
      { IdentityID := user.ID, PasswordHash := hash, OneTimePassword := true } with
  | .error err => (.error err, rCtx)
  | .ok db1 =>
  match data.CreateProviderUser env db1 (data.InfraProvider db1) user with
  | .error err => (.error (.wrapf "creating provider user: %w" err), { rCtx with DBTxn := db1 })
  | .ok (_, db2) => (.ok tmpPassword, { rCtx with DBTxn := db2 })

/-! ## Specification-side definitions -/

/-- The message a table row contributes, if any. -/
def rowMessage (r : Requirement) : Option String :=
  if r.minCount == 1 then some (Sprintf r.singularError r.minCount)
  else if r.minCount > 1 then some (Sprintf r.pluralError r.minCount)
  else none

/-- The requirement string of a category: singular wording for a minimum of 1, plural
otherwise. -/
def requirementString (r : Requirement) : String :=
  if r.minCount = 1 then Sprintf r.singularError r.minCount else Sprintf r.pluralError r.minCount

/-- Requirement strings of the categories whose configured minimum is at least 1, in the
order of the table. -/
def configuredRequirements (env : Env) (settings : Settings) : List String :=
  ((requirements env settings).filter (fun r => decide (1 ≤ r.minCount))).map requirementString

/-- Requirement strings of the categories the password falls short of, in the order of
the table: the message list as the specification words it. -/
def unmetRequirements (env : Env) (settings : Settings) (password : String) : List String :=
  ((requirements env settings).filter
    (fun r => !hasMinimumCount password r.minCount r.countFunc)).map requirementString

/-- An environment for concrete evaluation: the `unicode` predicates restricted to ASCII
(where they agree with Go), a transparent stand-in for bcrypt, no deny-list variable, a
constant entropy source and no storage failure. -/
def asciiEnv : Env where
  IsLower := fun r => decide (0x61 ≤ r.toNat ∧ r.toNat ≤ 0x7A)
  IsUpper := fun r => decide (0x41 ≤ r.toNat ∧ r.toNat ≤ 0x5A)
  IsDigit := fun r => decide (0x30 ≤ r.toNat ∧ r.toNat ≤ 0x39)
  GenerateFromPassword := fun password => .ok (password.data.map Char.toNat)
  CompareHashAndPassword := fun hash password =>
    if hash = password.data.map Char.toNat then none
    else some (.external "crypto/bcrypt: hashedPassword is not the hash of the given password")
  Getenv := fun _ => ""
  Open := fun _ => .error (.external "open: no such file or directory")
  randInt := fun _ _ => some 0
  fault := fun _ => none
  InfraAdminRole := "admin"
  ScopePasswordReset := "password-reset"
  CharsetPassword := "abcdefghijklmnopqrstuvwxyzABCDEFGHIJKLMNOPQRSTUVWXYZ0123456789"

/-! ## Concrete requests and environments -/

/-- The request of user 7, who has a credential for the password "Old-passw0rd" and presents
an access key carrying the password-reset scope. -/
def selfRequest : RequestContext :=
  { DBTxn :=
      { settings := { LengthMin := 8 }
        credentials := [{ IdentityID := 7, PasswordHash := "Old-passw0rd".data.map Char.toNat,
                          OneTimePassword := true }]
        accessKeys := [{ ID := 3, IssuedFor := 7, Scopes := ["password-reset", "login"] }] }
    Authenticated :=
      { User := some { ID := 7, Name := "user@example.com" }
        AccessKey := some { ID := 3, IssuedFor := 7, Scopes := ["password-reset", "login"] } } }

/-- The request of the administrator 1, who holds the admin role on "infra". -/
def adminRequest : RequestContext :=
  { DBTxn :=
      { settings := { LengthMin := 8 }
        grants := [{ Subject := .identity 1, Resource := "infra", Privilege := "admin" }] }
    Authenticated := { User := some { ID := 1, Name := "admin@example.com" } } }

/-- An environment whose deny-list variable names a file that does not exist. -/
def missingFileEnv : Env :=
  { asciiEnv with
    Getenv := fun name =>
      if name == "INFRA_SERVER_BAD_PASSWORDS_FILE" then "/etc/infra/bad-passwords.txt" else ""
    Open := fun _ =>
      .error (.external "open /etc/infra/bad-passwords.txt: no such file or directory") }

/-- An environment whose deny-list file holds two common passwords. -/
def denyListEnv : Env :=
  { asciiEnv with
    Getenv := fun name =>
      if name == "INFRA_SERVER_BAD_PASSWORDS_FILE" then "/etc/infra/bad-passwords.txt" else ""
    Open := fun _ => .ok { lines := ["123456", "password"] } }

/-! ## Wording of the requirement strings -/

/-- The requirement string the specification gives a category whose configured minimum is
`n`: the singular form for 1, the plural form above 1, none otherwise. -/
def wording (n : Int) (singular plural : String) : Option String :=
  if n = 1 then some ("1 " ++ singular)
  else if n > 1 then some (toString n ++ " " ++ plural)
  else none

/-- The five categories of the policy: configured minimum, singular and plural noun. -/
def categoryNouns (settings : Settings) : List (Int × String × String) :=
  [ (settings.LengthMin, "character", "characters"),
    (settings.LowercaseMin, "lowercase letter", "lowercase letters"),
    (settings.UppercaseMin, "uppercase letter", "uppercase letters"),
    (settings.NumberMin, "number", "numbers"),
    (settings.SymbolMin, "symbol", "symbols") ]

/-! ## Encryption key manager (`internal/server/server.go`) -/

namespace data

/-- Modelled from the spec: `data.GetEncryptionKey` with the selector `data.ByName` is not under
src/. It loads the envelope record of that name; the absent record is `ErrNotFound`. -/
def GetEncryptionKey (env : Env) (db : DB) (name : String) : Except Err EncryptionKey :=
  match env.keyFault .GetEncryptionKey with
  | some msg => .error (.external msg)
  | none =>
    match db.encryptionKeys.find? (fun k => k.Name == name) with
    | some keyRec => .ok keyRec
    | none => .error .ErrNotFound

/-- Modelled from the spec: `data.CreateEncryptionKey` is not under src/. It persists the
envelope record. -/
def CreateEncryptionKey (env : Env) (db : DB) (key : EncryptionKey) :
    Except Err (EncryptionKey × DB) :=
  match env.keyFault .CreateEncryptionKey with
  | some msg => .error (.external msg)
  | none => .ok (key, { db with encryptionKeys := db.encryptionKeys ++ [key] })

end data

/-- Modelled from the spec: the type `secrets.SymmetricKey` is not under src/. It is the data
key as a provider returns it: the key in the clear, its ciphertext, the wrapping algorithm
and the root key that wraps it. -/
structure SymmetricKey where
  unencrypted : List Nat
  Encrypted : List Nat
  Algorithm : String
  RootKeyID : String
  deriving DecidableEq, Repr

/-- The interface `secrets.SymmetricKeyProvider`, the pluggable root-key provider:
`GenerateDataKey(rootKeyID)` and `DecryptDataKey(rootKeyID, keyData)`. -/
structure SymmetricKeyProvider where
  GenerateDataKey : String → Except Err SymmetricKey
  DecryptDataKey : String → List Nat → Except Err SymmetricKey

/-- A call made on the configured key provider. -/
inductive ProviderCall where
  | GenerateDataKey (rootKeyID : String)
  | DecryptDataKey (rootKeyID : String) (keyData : List Nat)
  deriving DecidableEq, Repr

/-- The fields of `Options` that the key manager reads. -/
structure Options where
  DBEncryptionKey : String := ""
  DBEncryptionKeyProvider : String := ""
  deriving DecidableEq, Repr

/-- The fields of `Server` that `Run` and the key manager use; `keys` is a Go map. -/
structure Server where
  options : Options := {}
  db : DB := {}
  keys : List (String × SymmetricKeyProvider) := []

/-- The running process: the server value, the package variable `models.SymmetricKey` (nil
until a key is loaded) and the calls made on the key provider so far. -/
structure Process where
  server : Server := {}
  SymmetricKey : Option SymmetricKey := none
  providerCalls : List ProviderCall := []

/-- Source `var dbKeyName = "dbkey"`. -/
def dbKeyName : String := "dbkey"

/-- Source `Server.createDBKey`. -/
def createDBKey (env : Env) (p : Process) (provider : SymmetricKeyProvider)
    (rootKeyId : String) : Option Err × Process :=
  let p1 : Process := { p with providerCalls := p.providerCalls ++ [.GenerateDataKey rootKeyId] }
  match provider.GenerateDataKey rootKeyId with
  | .error err => (some err, p1)
  | .ok sKey =>
    let key : EncryptionKey :=
      { Name := dbKeyName, Encrypted := sKey.Encrypted, Algorithm := sKey.Algorithm,
        RootKeyID := sKey.RootKeyID }
    match data.CreateEncryptionKey env p1.server.db key with
    | .error err => (some err, p1)
    | .ok (_, db1) =>
      (none, { p1 with server := { p1.server with db := db1 }, SymmetricKey := some sKey })

/-- Source `Server.loadDBKey`. -/
def loadDBKey (env : Env) (p : Process) : Option Err × Process :=
  match p.server.keys.lookup p.server.options.DBEncryptionKeyProvider with
  | none =>
    (some (.external
      ("key provider " ++ p.server.options.DBEncryptionKeyProvider ++ " not configured")), p)
  | some key =>
    match data.GetEncryptionKey env p.server.db dbKeyName with
    | .error err =>
      if errorsIs err .ErrNotFound then createDBKey env p key p.server.options.DBEncryptionKey
      else (some err, p)
    | .ok keyRec =>
      let p1 : Process :=
        { p with providerCalls := p.providerCalls ++
            [.DecryptDataKey p.server.options.DBEncryptionKey keyRec.Encrypted] }
      match key.DecryptDataKey p.server.options.DBEncryptionKey keyRec.Encrypted with
      | .error err => (some err, p1)
      | .ok sKey => (none, { p1 with SymmetricKey := some sKey })

/-- The steps of `Run` other than `loadDBKey`. Their code reaches outside the files
embedded here (sentry, the database drivers, telemetry, the HTTP servers), so each is given
by its outcome on the server value. -/
structure RunSteps where
  validateStruct : Options → Option Err
  configureSentry : Server → Option Err × Bool
  importSecrets : Server → Except Err Server
  importSecretKeys : Server → Except Err Server
  getDatabaseDriver : Server → Except Err String
  NewDB : String → Except Err DB
  InitializeSettings : DB → Except Err DB
  configureTelemetry : Server → Except Err Server
  SetupMetrics : DB → Option Err
  MkdirAll : Server → Option Err
  importAccessKeys : Server → Except Err Server
  runServer : Server → Option Err
  Sync : Option Err

/-- What a call of `Run` leaves: the error returned, the process, and whether `runServer`
was called. -/
structure RunOutcome where
  err : Option Err
  process : Process
  ranServer : Bool

/-- Source `Run`, from its start to the call of `loadDBKey` excluded: the server value that
`loadDBKey` is called on, or the error `Run` returns before. -/
def runUntilLoadDBKey (steps : RunSteps) (options : Options) : Except Err Server :=
  let server : Server := { options := options }
  match steps.validateStruct options with
  | some err => .error (.wrapf "invalid options: %w" err)
  | none =>
  match steps.configureSentry server with
  | (some err, false) => .error (.wrapf "configure sentry: %w" err)
  | _ =>
  match steps.importSecrets server with
  | .error err => .error (.wrapf "secrets config: %w" err)
  | .ok server =>
  match steps.importSecretKeys server with
  | .error err => .error (.wrapf "key config: %w" err)
  | .ok server =>
  match steps.getDatabaseDriver server with
  | .error err => .error (.wrapf "driver: %w" err)
  | .ok driver =>
  match steps.NewDB driver with
  | .error err => .error (.wrapf "db: %w" err)
  | .ok db =>
  match steps.InitializeSettings db with
  | .error err => .error (.wrapf "settings: %w" err)
  | .ok db => .ok { server with db := db }

/-- Source `Run`, from the successful `loadDBKey` on. The goroutine that imports the
configuration runs beside `runServer` and is left out. -/
def runAfterLoadDBKey (steps : RunSteps) (p : Process) : RunOutcome :=
  match steps.configureTelemetry p.server with
  | .error err => ⟨some (.wrapf "configuring telemetry: %w" err), p, false⟩
  | .ok server =>
  let p : Process := { p with server := server }
  match steps.SetupMetrics p.server.db with
  | some err => ⟨some (.wrapf "configuring metrics: %w" err), p, false⟩
  | none =>
  match steps.MkdirAll p.server with
  | some err => ⟨some (.wrapf "mkdir: %w" err), p, false⟩
  | none =>
  match steps.importAccessKeys p.server with
  | .error err => ⟨some (.wrapf "importing access keys: %w" err), p, false⟩
  | .ok server =>
  let p : Process := { p with server := server }
  match steps.runServer p.server with
  | some err => ⟨some (.wrapf "running server: %w" err), p, true⟩
  | none => ⟨steps.Sync, p, true⟩

/-- Source `Run`, started in a process whose `models.SymmetricKey` is `symmetricKey`. -/
def Run (env : Env) (steps : RunSteps) (options : Options)
    (symmetricKey : Option SymmetricKey) : RunOutcome :=
  match runUntilLoadDBKey steps options with
  | .error err =>
    ⟨some err, { server := { options := options }, SymmetricKey := symmetricKey }, false⟩
  | .ok server =>
    match loadDBKey env { server := server, SymmetricKey := symmetricKey } with
    | (some err, p) => ⟨some (.wrapf "loading database key: %w" err), p, false⟩
    | (none, p) => runAfterLoadDBKey steps p

/-- Successive calls of `loadDBKey` on one store, each by a process with its own environment
and configuration (`boots`): the store they leave and, call by call, whether the call
succeeded. -/
def loadDBKeyCalls : List (Env × Server) → DB → DB × List Bool
  | [], db => (db, [])
  | (env, server) :: boots, db =>
    let r := loadDBKey env { server := { server with db := db } }
    let rest := loadDBKeyCalls boots r.2.server.db
    (rest.1, r.1.isNone :: rest.2)

/-- The records named "dbkey" in a store. -/
def dbKeyRecords (db : DB) : List EncryptionKey :=
  db.encryptionKeys.filter (fun k => k.Name == dbKeyName)

/-- A key provider for concrete evaluation: it wraps the data key [1, 2, 3] as [42, 43] and
unwraps that ciphertext only. -/
def testProvider : SymmetricKeyProvider where
  GenerateDataKey := fun rootKeyID =>
    .ok { unencrypted := [1, 2, 3], Encrypted := [42, 43], Algorithm := "aesgcm",
          RootKeyID := rootKeyID }
  DecryptDataKey := fun rootKeyID keyData =>
    if keyData = [42, 43] then
      .ok { unencrypted := [1, 2, 3], Encrypted := [42, 43], Algorithm := "aesgcm",
            RootKeyID := rootKeyID }
    else .error (.external "cipher: message authentication failed")

/-- The server configuration of the concrete boots: provider "native", root key "root". -/
def testServer : Server :=
  { options := { DBEncryptionKey := "root", DBEncryptionKeyProvider := "native" }
    keys := [("native", testProvider)] }

/-- A process booting on an empty store. -/
def firstBoot : Process :=
  { server := testServer }

/-- A process booting on a store that holds the "dbkey" record of an earlier boot. -/
def laterBoot : Process :=
  { server := { testServer with
      db := { encryptionKeys :=
        [{ Name := "dbkey", Encrypted := [42, 43], Algorithm := "aesgcm", RootKeyID := "root" }] } } }

/-- A process whose configuration names a key provider that is not configured. -/
def misconfiguredBoot : Process :=
  { server := { options := { DBEncryptionKey := "root", DBEncryptionKeyProvider := "vault" }
                keys := [("native", testProvider)] } }

/-- Steps of `Run` that all succeed and reach the configuration of `misconfiguredBoot`. -/
def testSteps : RunSteps where
  validateStruct := fun _ => none
  configureSentry := fun _ => (none, false)
  importSecrets := fun server => .ok server
  importSecretKeys := fun server => .ok { server with keys := [("native", testProvider)] }
  getDatabaseDriver := fun _ => .ok "sqlite"
  NewDB := fun _ => .ok {}
  InitializeSettings := fun db => .ok db
  configureTelemetry := fun server => .ok server
  SetupMetrics := fun _ => none
  MkdirAll := fun _ => none
  importAccessKeys := fun server => .ok server
  runServer := fun _ => none
  Sync := none

/-! ## API errors (`internal/server/api.go`) -/

/-- Go conversion `int32(n)`. -/
def int32 (n : Int) : Int :=
  (n + 2147483648) % 4294967296 - 2147483648

/-- What `sendAPIError` writes: the status and body given to `c.JSON`, and `c.Abort()`. -/
structure APIResponse where
  status : Int
  Code : Int
  Message : String
  aborted : Bool
  deriving DecidableEq, Repr

/-- Source `sendAPIError`. `errorText` is the method `Error()` of the error values, whose
declarations are not under src/. -/
def sendAPIError (errorText : Err → String) (err : Err) : APIResponse :=
  let code : Int := 500
  let message := "internal server error"
  let (code, message) :=
    if errorsIs err .ErrUnauthorized then (401, "unauthorized")
    else if errorsIs err .ErrForbidden then (403, "forbidden")
    else if errorsIs err .ErrDuplicate then (409, errorText err)
    else if errorsIs err .ErrNotFound then (404, errorText err)
    else if errorsIs err .ErrBadRequest then (400, errorText err)
    else if errorsIs err .InvalidValidationError then (400, errorText err)
    else (code, message)
  { status := code, Code := int32 code, Message := message, aborted := true }

/-- The error at the end of a chain of wrapped errors. -/
def rootCause : Err → Err
  | .wrapf _ inner => rootCause inner
  | e => e

/-- The error belongs to none of the classes `sendAPIError` recognises. -/
def unrecognised (err : Err) : Prop :=
  errorsIs err .ErrUnauthorized = false ∧ errorsIs err .ErrForbidden = false ∧
    errorsIs err .ErrDuplicate = false ∧ errorsIs err .ErrNotFound = false ∧
    errorsIs err .ErrBadRequest = false ∧ errorsIs err .InvalidValidationError = false

/-! ## Initial setup (`internal/access/setup.go`) -/

namespace data

/-- Modelled from the spec: `data.CreateMachine` is not under src/. It stores the machine
identity under a new ID, which it also writes into the value passed. -/
def CreateMachine (env : Env) (db : DB) (machine : Machine) : Except Err (Machine × DB) :=
  match env.fault .CreateMachine with
  | some err => .error err
  | none =>
    let machine : Machine := { machine with ID := env.NewID 0 }
    .ok (machine, { db with machines := db.machines ++ [machine] })

/-- Modelled from the spec: `data.CreateAccessKey` is not under src/. It "generates a random
secret, stores only its digest plus metadata, and returns the raw value exactly once". -/
def CreateAccessKey (env : Env) (db : DB) (key : AccessKey) :
    Except Err (String × AccessKey × DB) :=
  match env.fault .CreateAccessKey with
  | some err => .error err
  | none =>
    let key : AccessKey := { key with ID := env.NewID 1 }
    .ok (env.AccessKeySecret, key, { db with accessKeys := db.accessKeys ++ [key] })

/-- Modelled from the spec: `data.SaveSettings` is not under src/. It stores the settings
singleton. -/
def SaveSettings (env : Env) (db : DB) (settings : Settings) : Except Err DB :=
  match env.fault .SaveSettings with
  | some err => .error err
  | none => .ok { db with settings := settings }

end data

/-- Modelled from the spec: `requireAuthorization` is not under src/. Called without a
required permission, as `Setup` does, it hands back the transaction of the request. -/
def requireAuthorization (rCtx : RequestContext) : Except Err DB :=
  .ok rCtx.DBTxn

/-- Source `Setup`. The second component is the request context left behind. -/
def Setup (env : Env) (rCtx : RequestContext) :
    Except Err (String × AccessKey) × RequestContext :=
  match requireAuthorization rCtx with
  | .error err => (.error err, rCtx)
  | .ok db =>
  match data.GetSettings env db with
  | .error _ => (.error .ErrForbidden, rCtx)
  | .ok settings =>
  if !settings.SetupRequired then (.error .ErrForbidden, rCtx)
  else
    let name := "admin"
    let machine : Machine :=
      { Name := name, Description := "Infra admin machine identity",
        Permissions := env.PermissionAllInfra, LastSeenAt := env.Now 0 }
    match data.CreateMachine env db machine with
    | .error err => (.error err, rCtx)
    | .ok (machine, db1) =>
    let key : AccessKey :=
      { ID := 0, Scopes := [], Name := name ++ " access key", IssuedFor := machine.ID,
        IssuedForMachine := true, ExpiresAt := env.Now 1 + 9223372036854775807 }
    match data.CreateAccessKey env db1 key with
    | .error err => (.error err, { rCtx with DBTxn := db1 })
    | .ok (raw, key, db2) =>
    let settings : Settings := { settings with SetupRequired := false }
    match data.SaveSettings env db2 settings with
    | .error err => (.error err, { rCtx with DBTxn := db2 })
    | .ok db3 => (.ok (raw, key), { rCtx with DBTxn := db3 })

/-- A request on a registry whose setup has been done. -/
def setupDoneRequest : RequestContext :=
  { DBTxn := { settings := { SetupRequired := false }
               machines := [{ ID := 1, Name := "admin", Description := "Infra admin machine identity",
                              Permissions := "infra.*", LastSeenAt := 0 }] } }

/-! ## Secret references (`secretKindAndName` in `internal/server/server.go`) -/

/-- Go `strings.Contains(s, sep)` for a separator of one ASCII character. -/
def stringsContains (s : String) (sep : Char) : Bool :=
  s.data.contains sep

/-- Cut at the first separator: the characters before it and those after it, if it occurs. -/
def cutChars (sep : Char) : List Char → Option (List Char × List Char)
  | [] => none
  | c :: rest =>
    if c == sep then some ([], rest)
    else
      match cutChars sep rest with
      | some (before, after) => some (c :: before, after)
      | none => none

/-- Go `strings.SplitN(s, sep, 2)` for a separator of one ASCII character: the text before
the first separator and the text after it, or the string itself when there is none. -/
def stringsSplitN2 (s : String) (sep : Char) : List String :=
  match cutChars sep s.data with
  | some (before, after) => [⟨before⟩, ⟨after⟩]
  | none => [s]

/-- Source `secretKindAndName`. In the error branch the named result `name` is still
empty, and `%q` prints it as two double quotes. -/
def secretKindAndName (secret : String) : Except Err (String × String) :=
  if !stringsContains secret ':' then .ok ("plaintext", secret)
  else
    match stringsSplitN2 secret ':' with
    | kind :: name :: _ => .ok (kind, name)
    | _ =>
      .error (.external ("unexpected secret provider format \"\". " ++
        "Expecting <kind>:<secret name>, eg env:ACCESS_TOKEN"))

/-! ## Connector token verifier (`getClaims`, package `connector`)

The function is not under src/; its tests are (`connector_test.go`). -/

/-- The custom claims `claims.Custom`: subject display name and group names. -/
structure Custom where
  Name : String := ""
  Groups : List String := []
  deriving DecidableEq, Repr

/-- A compact-serialized signed token once parsed: its custom claims, its expiry (seconds)
and the signature it carries. -/
structure SignedToken where
  Name : String
  Groups : List String
  Expiry : Int
  signature : List Nat
  deriving DecidableEq, Repr

/-- A `jose.JSONWebKey`: the key identifier and the key material. -/
structure JSONWebKey where
  KeyID : String := ""
  Key : List Nat := []
  deriving DecidableEq, Repr

/-- The token library and the clock: parsing of the compact serialization (the token, or
the text of the parse failure), signature verification against a key (`none` when the
signature verifies, else the text of the cryptographic error) and the current time in
seconds. -/
structure Jose where
  ParseSigned : String → Except String SignedToken
  VerifySignature : JSONWebKey → SignedToken → Option String
  Now : Int

/-- The headers of the proxied request. -/
structure Request where
  Header : List (String × String) := []
  deriving DecidableEq, Repr

/-- Go `req.Header.Get(key)`: the value of the header, empty when it is absent. -/
def headerGet (req : Request) (key : String) : String :=
  (req.Header.lookup key).getD ""

/-- The bearer token of an `Authorization` header: the text after "Bearer ", or the header
itself when it does not start so. -/
def bearerToken (authHeader : String) : String :=
  if "Bearer ".data.isPrefixOf authHeader.data then ⟨authHeader.data.drop 7⟩ else authHeader

/-- Modelled from the spec: `getClaims` is not under src/. It "extracts the `Authorization:
Bearer <token>` header; absence yields a "no bearer token" error distinct from a malformed
token", parses the token, verifies "signature validity first (cryptographic errors surfaced
verbatim), then expiry (`now > exp` → "token is expired")", and "on success, decodes custom
claims: subject display name and group-name list". The error texts are those the tests
expect. -/
def getClaims (jose : Jose) (req : Request) (jwk : JSONWebKey) : Except Err Custom :=
  let authHeader := headerGet req "Authorization"
  let raw := bearerToken authHeader
  if raw == "" then .error (.external "no bearer token found")
  else
    match jose.ParseSigned raw with
    | .error msg => .error (.wrapf "invalid jwt signature: %w" (.external msg))
    | .ok tok =>
      match jose.VerifySignature jwk tok with
      | some msg => .error (.external msg)
      | none =>
        if jose.Now > tok.Expiry then .error .ErrExpired
        else .ok { Name := tok.Name, Groups := tok.Groups }

/-- A token library for concrete evaluation: the serialization "good" is a token signed by
key "k1" that expired at second 100, "forged" the same claims under a foreign signature. -/
def testJose : Jose where
  ParseSigned := fun raw =>
    if raw == "good" then
      .ok { Name := "test@example.com", Groups := ["developers"], Expiry := 100, signature := [1] }
    else if raw == "forged" then
      .ok { Name := "test@example.com", Groups := ["developers"], Expiry := 100, signature := [2] }
    else .error "square/go-jose: compact JWS format must have three parts"
  VerifySignature := fun jwk tok =>
    if jwk.KeyID == "k1" && tok.signature == [1] then none
    else some "square/go-jose: error in cryptographic primitive"
  Now := 3700

/-! ## Symbol characters: the specification's wording -/

/-- Printable ASCII character that is neither an ASCII letter nor an ASCII digit. -/
def printableNonAlphanumeric (r : Char) : Prop :=
  0x20 ≤ r.toNat ∧ r.toNat ≤ 0x7E ∧
    ¬ (0x41 ≤ r.toNat ∧ r.toNat ≤ 0x5A) ∧ ¬ (0x61 ≤ r.toNat ∧ r.toNat ≤ 0x7A) ∧
    ¬ (0x30 ≤ r.toNat ∧ r.toNat ≤ 0x39)

/-! ## Further concrete inputs and sequences of calls -/

/-- A process whose store holds a "dbkey" record wrapped under the root key "old-root",
while the configuration names the root key "new-root". -/
def rekeyedBoot : Process :=
  { server :=
      { options := { DBEncryptionKey := "new-root", DBEncryptionKeyProvider := "native" }
        keys := [("native", testProvider)]
        db := { encryptionKeys :=
          [{ Name := "dbkey", Encrypted := [42, 43], Algorithm := "aesgcm",
             RootKeyID := "old-root" }] } } }

/-- Whether a call returned without error. -/
def succeeded {α : Type} : Except Err α → Bool
  | .ok _ => true
  | .error _ => false

/-- Successive calls of `Setup` on one store, each with its own environment: the results,
call by call, and the request context left by the last. -/
def setupCalls : List Env → RequestContext →
    List (Except Err (String × AccessKey)) × RequestContext
  | [], rCtx => ([], rCtx)
  | env :: envs, rCtx =>
    let first := Setup env rCtx
    let rest := setupCalls envs first.2
    (first.1 :: rest.1, rest.2)

/-- A request on a registry that still awaits its setup. -/
def setupPendingRequest : RequestContext :=
  { DBTxn := { settings := { SetupRequired := true } } }

/-- Modelled from the spec: signing is done by the token library, which is not under src/
(`generateJWT` of the tests calls it). It yields the compact serialization of a token
that carries the custom claims and the expiry, signed with the private key. -/
structure Signer where
  CompactSerialize : JSONWebKey → Custom → Int → String

/-- The token library of `testJose` at second 50, before the expiry of its tokens. -/
def earlyJose : Jose :=
  { testJose with Now := 50 }

/-- A signer for concrete evaluation: the serialization of the one token `testJose` parses
as signed by the key "k1". -/
def testSigner : Signer where
  CompactSerialize := fun _ _ _ => "good"

/-! ## Access key handlers (`internal/server/api.go`) -/

/-- Go `strings.Join(elems, sep)`. -/
def stringsJoin (elems : List String) (sep : String) : String :=
  ⟨sep.data.intercalate (elems.map String.data)⟩

/-- Go `strings.Split(s, sep)` for a separator of one character: the pieces between the
separators, one piece (the string itself) when there is none. -/
def stringsSplit (s : String) (sep : Char) : List String :=
  (s.data.splitOn sep).map String.mk

/-- The request `api.CreateAccessKeyRequest`. `Ttl` is in nanoseconds. -/
structure CreateAccessKeyRequest where
  Name : String := ""
  Permissions : List String := []
  Ttl : Int := 0
  deriving DecidableEq, Repr

/-- The response `api.CreateAccessKeyResponse`. -/
structure CreateAccessKeyResponse where
  ID : Nat
  Created : Int
  AccessKey : String
  deriving DecidableEq, Repr

/-- The listed form `api.AccessKey`. -/
structure APIAccessKey where
  ID : Nat
  Name : String
  Permissions : List String
  Created : Int
  Expires : Int
  deriving DecidableEq, Repr

namespace data

/-- Modelled from the spec: `data.ListAccessKeys` is not under src/. It lists the stored
access keys. -/
def ListAccessKeys (env : Env) (db : DB) : Except Err (List AccessKey) :=
  match env.fault .ListAccessKeys with
  | some err => .error err
  | none => .ok db.accessKeys

end data

namespace access

/-- Modelled from the spec: `access.CreateAccessKey` is not under src/. It "stores only its
digest plus metadata, and returns the raw value exactly once"; the value passed receives its
ID. A refusal of the caller is one of the failures of the call. -/
def CreateAccessKey (env : Env) (rCtx : RequestContext) (accessKey : AccessKey) :
    Except Err (String × AccessKey) × RequestContext :=
  match data.CreateAccessKey env rCtx.DBTxn accessKey with
  | .error err => (.error err, rCtx)
  | .ok (raw, accessKey, db) => (.ok (raw, accessKey), { rCtx with DBTxn := db })

/-- Modelled from the spec: `access.ListAccessKeys` is not under src/. It returns the stored
access keys; a refusal of the caller is one of the failures of the call. -/
def ListAccessKeys (env : Env) (rCtx : RequestContext) : Except Err (List AccessKey) :=
  data.ListAccessKeys env rCtx.DBTxn

end access

namespace API

/-- Source `API.CreateAccessKey`. The second component is the request context left
behind. -/
def CreateAccessKey (env : Env) (rCtx : RequestContext) (r : CreateAccessKeyRequest) :
    Except Err CreateAccessKeyResponse × RequestContext :=
  let accessKey : AccessKey :=
    { ID := 0, IssuedFor := 0, Scopes := [], Name := r.Name,
      Permissions := stringsJoin r.Permissions " ", ExpiresAt := env.Now 0 + r.Ttl }
  match access.CreateAccessKey env rCtx accessKey with
  | (.error err, rCtx1) => (.error err, rCtx1)
  | (.ok (raw, accessKey), rCtx1) =>
    (.ok { ID := accessKey.ID, Created := accessKey.CreatedAt, AccessKey := raw }, rCtx1)

/-- Source `API.ListAccessKeys`. -/
def ListAccessKeys (env : Env) (rCtx : RequestContext) : Except Err (List APIAccessKey) :=
  match access.ListAccessKeys env rCtx with
  | .error err => .error err
  | .ok accessKeys =>
    .ok (accessKeys.map (fun a =>
      { ID := a.ID, Name := a.Name, Permissions := stringsSplit a.Permissions ' ',
        Created := a.CreatedAt, Expires := a.ExpiresAt }))

end API

/-! ## Provider URLs (`cleanupURL` in `internal/server/api.go`) -/

/-- Go `unicode.IsSpace`: the characters with the Unicode property White_Space. -/
def isSpace (r : Char) : Bool :=
  r.toNat == 0x09 || r.toNat == 0x0A || r.toNat == 0x0B || r.toNat == 0x0C ||
    r.toNat == 0x0D || r.toNat == 0x20 || r.toNat == 0x85 || r.toNat == 0xA0 ||
    r.toNat == 0x1680 || (0x2000 ≤ r.toNat && r.toNat ≤ 0x200A) || r.toNat == 0x2028 ||
    r.toNat == 0x2029 || r.toNat == 0x202F || r.toNat == 0x205F || r.toNat == 0x3000

/-- Go `strings.TrimSpace`, on the characters: leading and trailing white space removed. -/
def trimSpaceChars (l : List Char) : List Char :=
  ((l.dropWhile isSpace).reverse.dropWhile isSpace).reverse

/-- `dashAdminRemover.ReplaceAllString(url, "$1$2")` for the pattern
`(.*)\-admin(\.okta\.com)`, on the characters. `.` does not match a newline, so a match
lies in one line; it starts at the start of the line and the greedy `(.*)` runs to the last
"-admin.okta.com" of the line, which loses its "-admin". The second component tells
whether the first line of the text had such an occurrence. -/
def dashAdminAux : List Char → List Char × Bool
  | [] => ([], false)
  | c :: rest =>
    let r := dashAdminAux rest
    if c == '\n' then (c :: r.1, false)
    else if r.2 then (c :: r.1, true)
    else if "-admin.okta.com".data.isPrefixOf (c :: rest) then
      (".okta.com".data ++ r.1.drop 14, true)
    else (c :: r.1, false)

/-- `protocolRemover.ReplaceAllString(url, "")` for the pattern `http[s]?://`, on the
characters: the matches are found from left to right and do not overlap. `skip` counts the
characters of the current match still to be dropped. -/
def removeProtocolAux : Nat → List Char → List Char
  | _, [] => []
  | skip + 1, _ :: rest => removeProtocolAux skip rest
  | 0, c :: rest =>
    if "https://".data.isPrefixOf (c :: rest) then removeProtocolAux 7 rest
    else if "http://".data.isPrefixOf (c :: rest) then removeProtocolAux 6 rest
    else c :: removeProtocolAux 0 rest

/-- Source `cleanupURL`. -/
def cleanupURL (url : String) : String :=
  let url := trimSpaceChars url.data
  let url := (dashAdminAux url).1
  let url := removeProtocolAux 0 url
  ⟨url⟩

/-- Nothing is left to clean in `url`: no white space around it, no "-admin.okta.com" and
no "http://" or "https://" in it. -/
def cleaned (url : String) : Prop :=
  (∀ c, url.data.head? = some c → isSpace c = false) ∧
    (∀ c, url.data.getLast? = some c → isSpace c = false) ∧
    ¬ "-admin.okta.com".data <:+: url.data ∧
    ¬ "http://".data <:+: url.data ∧ ¬ "https://".data <:+: url.data

/-! ## Kubeconfig update (`updateKubeconfig` in `internal/cmd/cmd.go`)

The maps of the kubeconfig are association lists with one entry per key. -/

/-- A destination `v1.Destination`, by its name. -/
structure Destination where
  Name : String
  deriving DecidableEq, Repr

/-- The fields of `clientcmdapi.Cluster` that are set. -/
structure KubeCluster where
  Server : String
  CertificateAuthority : String
  deriving DecidableEq, Repr

/-- The fields of `clientcmdapi.AuthInfo` that are set: those of its `Exec` configuration. -/
structure KubeAuthInfo where
  Command : String
  Args : List String
  APIVersion : String
  deriving DecidableEq, Repr

/-- A `clientcmdapi.Context`. -/
structure KubeContext where
  Cluster : String
  AuthInfo : String
  deriving DecidableEq, Repr

/-- The fields of `clientcmdapi.Config` that `updateKubeconfig` touches. -/
structure KubeConfig where
  Clusters : List (String × KubeCluster) := []
  AuthInfos : List (String × KubeAuthInfo) := []
  Contexts : List (String × KubeContext) := []
  CurrentContext : String := ""
  deriving DecidableEq, Repr

/-- What `updateKubeconfig` reaches outside the repository: the home directory, the JSON
encoder, the file system, the path of the executable, the kubeconfig loader and writer, and
the first key that a `range` over a map yields (Go leaves the order open). -/
structure KubeEnv where
  homedirDir : Except Err String
  jsonMarshal : List Destination → Except Err String
  WriteFile : String → String → Option Err
  Executable : Except Err String
  RawConfig : Except Err KubeConfig
  WriteToFile : KubeConfig → Option Err
  rangeFirst : List String → Option String

/-- Go `m[key] = value`. -/
def mapSet {V : Type} (m : List (String × V)) (key : String) (value : V) : List (String × V) :=
  if m.any (fun e => e.1 == key) then m.map (fun e => if e.1 == key then (key, value) else e)
  else m ++ [(key, value)]

/-- Go `delete(m, key)`. -/
def mapDelete {V : Type} (m : List (String × V)) (key : String) : List (String × V) :=
  m.filter (fun e => e.1 != key)

/-- Go `_, ok := m[key]`. -/
def mapHas {V : Type} (m : List (String × V)) (key : String) : Bool :=
  m.any (fun e => e.1 == key)

/-- Go `strings.HasPrefix(s, pre)`. -/
def stringsHasPrefix (s pre : String) : Bool :=
  pre.data.isPrefixOf s.data

/-- Removal of every occurrence of `old`, found from left to right without overlap; `skip`
counts the characters of the current occurrence still to be dropped. -/
def removeAllAux (old : List Char) : Nat → List Char → List Char
  | _, [] => []
  | skip + 1, _ :: rest => removeAllAux old skip rest
  | 0, c :: rest =>
    if old.isPrefixOf (c :: rest) then removeAllAux old (old.length - 1) rest
    else c :: removeAllAux old 0 rest

/-- Go `strings.ReplaceAll(s, old, "")` for a non-empty `old`. -/
def stringsRemoveAll (s old : String) : String :=
  ⟨removeAllAux old.data 0 s.data⟩

/-- The first loop of `updateKubeconfig`: cluster, user and context "infra:" + name for each
destination. `home` is a clean path, so `filepath.Join` puts one slash between the parts. -/
def addDestinations (env : KubeEnv) (home : String) :
    List Destination → KubeConfig → Except Err KubeConfig
  | [], kubeConfig => .ok kubeConfig
  | d :: destinations, kubeConfig =>
    let contextName := "infra:" ++ d.Name
    let cluster : KubeCluster :=
      { Server := "https://localhost:32710/client/" ++ d.Name,
        CertificateAuthority := home ++ "/.infra/client/cert.pem" }
    let kubeConfig : KubeConfig :=
      { kubeConfig with Clusters := mapSet kubeConfig.Clusters contextName cluster }
    match env.Executable with
    | .error err => .error err
    | .ok executable =>
      let authInfo : KubeAuthInfo :=
        { Command := executable, Args := ["creds"],
          APIVersion := "client.authentication.k8s.io/v1alpha1" }
      let kubeConfig : KubeConfig :=
        { kubeConfig with AuthInfos := mapSet kubeConfig.AuthInfos contextName authInfo }
      let context : KubeContext := { Cluster := contextName, AuthInfo := contextName }
      let kubeConfig : KubeConfig :=
        { kubeConfig with Contexts := mapSet kubeConfig.Contexts contextName context }
      addDestinations env home destinations kubeConfig

/-- One iteration of the second loop of `updateKubeconfig`, for the context `name`. -/
def pruneContext (destinations : List Destination) (kubeConfig : KubeConfig) (name : String) :
    KubeConfig :=
  if !stringsHasPrefix name "infra:" then kubeConfig
  else
    let destinationName := stringsRemoveAll name "infra:"
    let exists_ := destinations.any (fun d => destinationName == d.Name)
    if !exists_ then
      { kubeConfig with
        Clusters := mapDelete kubeConfig.Clusters name
        Contexts := mapDelete kubeConfig.Contexts name
        AuthInfos := mapDelete kubeConfig.AuthInfos name }
    else kubeConfig

/-- Source `updateKubeconfig`. The result is the configuration written to the kubeconfig
file. The second loop ranges over the contexts while it deletes the one at hand, which is a
fold over the names present when it starts. -/
def updateKubeconfig (env : KubeEnv) (destinations : List Destination) :
    Except Err KubeConfig :=
  match env.homedirDir with
  | .error err => .error err
  | .ok home =>
  let written : Option Err :=
    if destinations.length > 0 then
      match env.jsonMarshal destinations with
      | .error err => some err
      | .ok destinationsJSON => env.WriteFile (home ++ "/.infra/destinations") destinationsJSON
    else none
  match written with
  | some err => .error err
  | none =>
  match env.RawConfig with
  | .error err => .error err
  | .ok kubeConfig =>
  match addDestinations env home destinations kubeConfig with
  | .error err => .error err
  | .ok kubeConfig =>
  let kubeConfig := (kubeConfig.Contexts.map Prod.fst).foldl (pruneContext destinations) kubeConfig
  let kubeConfig : KubeConfig :=
    if destinations.length == 0 then
      if !mapHas kubeConfig.Contexts kubeConfig.CurrentContext then
        { kubeConfig with
          CurrentContext := (env.rangeFirst (kubeConfig.Contexts.map Prod.fst)).getD "" }
      else kubeConfig
    else kubeConfig
  match env.WriteToFile kubeConfig with
  | some err => .error err
  | none => .ok kubeConfig

/-- A workstation for concrete evaluation: home "/home/user", an empty kubeconfig, and no
failing call. -/
def kubeTestEnv : KubeEnv where
  homedirDir := .ok "/home/user"
  jsonMarshal := fun _ => .ok "[]"
  WriteFile := fun _ _ => none
  Executable := .ok "/usr/local/bin/infra"
  RawConfig := .ok {}
  WriteToFile := fun _ => none
  rangeFirst := List.head?

/-- A kubeconfig that holds the context "infra:infra:a". -/
def staleKubeConfig : KubeConfig :=
  { Contexts := [("infra:infra:a", { Cluster := "infra:infra:a", AuthInfo := "infra:infra:a" })] }

/-- The same workstation with the kubeconfig `staleKubeConfig`. -/
def kubeStaleEnv : KubeEnv :=
  { kubeTestEnv with RawConfig := .ok staleKubeConfig }

/-! ## Dynamic certificate cache (package `connector`)

The cache is not under src/; its tests are (`connector_test.go`). -/

/-- A leaf certificate: its DNS names, the CA that signed it and its key pair. -/
structure LeafCertificate where
  DNSNames : List String
  Issuer : String
  keyPair : Nat
  deriving DecidableEq, Repr

/-- Modelled from the spec: the type `CertCache` is not under src/. It is an "ordered list of
(hostname, generated leaf certificate) pairs" with "a loaded CA certificate+key used to sign
new leaves"; `issued` counts the key pairs generated, so that each leaf gets a fresh one. -/
structure CertCache where
  caCert : String
  caKey : String
  entries : List (String × LeafCertificate) := []
  issued : Nat := 0
  deriving DecidableEq, Repr

/-- The field `hosts` of the cache that the tests read. -/
def CertCache.hosts (c : CertCache) : List String :=
  c.entries.map Prod.fst

/-- Modelled from the spec: the issuing of a leaf is not under src/. It "generates a fresh
key pair, builds a leaf certificate with that hostname as its sole DNS name, signs it with
the CA". -/
def signLeaf (c : CertCache) (hostname : String) : LeafCertificate :=
  { DNSNames := [hostname], Issuer := c.caCert, keyPair := c.issued }

/-- Modelled from the spec: `NewCertCache` is not under src/. It "parses the CA once, seeds
the cache with a single entry for the empty hostname signed immediately". -/
def NewCertCache (caCertPEM caKeyPEM : String) : CertCache :=
  let c : CertCache := { caCert := caCertPEM, caKey := caKeyPEM }
  { c with entries := [("", signLeaf c "")], issued := 1 }

/-- The server name hint of a TLS handshake; empty when the client sent none. -/
structure ClientHelloInfo where
  ServerName : String := ""
  deriving DecidableEq, Repr

/-- Modelled from the spec: `CertCache.Certificate` is not under src/. It "looks up
`helloInfo.ServerName` in the cache (falling back to the empty-hostname sentinel when absent
or unset) — it does not implicitly call `AddHost` for unseen hostnames". -/
def Certificate (c : CertCache) (helloInfo : ClientHelloInfo) :
    Except Err LeafCertificate × CertCache :=
  match c.entries.lookup helloInfo.ServerName with
  | some cert => (.ok cert, c)
  | none =>
    match c.entries.lookup "" with
    | some cert => (.ok cert, c)
    | none => (.error (.external "no certificate for the empty hostname"), c)

/-! ## Lemmas on the password policy evaluator -/

theorem foldl_count_eq (p : Char → Bool) (l : List Char) (c : Int) :
    l.foldl (fun count r => if p r then count + 1 else count) c = c + (l.countP p : Int) := by
  induction l generalizing c with
  | nil => simp
  | cons a t ih =>
    simp only [List.foldl_cons, List.countP_cons, ih]
    by_cases h : p a = true
    · simp [h]; ring
    · simp [h]

theorem hasMinimumCount_iff (password : String) (min : Int) (p : Char → Bool) :
    hasMinimumCount password min p = true ↔ min ≤ (password.data.countP p : Int) := by
  simp [hasMinimumCount, foldl_count_eq]

theorem foldl_requirementStep (password : String) (rs : List Requirement)
    (v : Bool) (msgs : List String) :
    rs.foldl (requirementStep password) (v, msgs) =
      (v && rs.all (fun r => hasMinimumCount password r.minCount r.countFunc),
        msgs ++ rs.filterMap rowMessage) := by
  induction rs generalizing v msgs with
  | nil => simp
  | cons r t ih =>
    rw [List.foldl_cons, requirementStep, ih]
    refine Prod.ext ?_ ?_
    · cases h : hasMinimumCount password r.minCount r.countFunc <;> simp [h]
    · simp only [List.filterMap_cons, rowMessage]
      by_cases h1 : (r.minCount == 1) = true
      · simp [h1]
      · by_cases h2 : r.minCount > 1
        · simp [h1, h2]
        · simp [h1, h2]

theorem filterMap_rowMessage (rs : List Requirement) :
    rs.filterMap rowMessage =
      (rs.filter (fun r => decide (1 ≤ r.minCount))).map requirementString := by
  induction rs with
  | nil => simp
  | cons r t ih =>
    by_cases h1 : r.minCount = 1
    · simp [List.filterMap_cons, rowMessage, requirementString, h1, ih]
    · by_cases h2 : r.minCount > 1
      · have h3 : 1 ≤ r.minCount := by omega
        simp [List.filterMap_cons, List.filter_cons, rowMessage, requirementString, h1, h2, h3, ih]
      · have h3 : ¬ 1 ≤ r.minCount := by omega
        simp [List.filterMap_cons, List.filter_cons, rowMessage, h1, h2, h3, ih]

/-- What `checkPasswordRequirements` computes once the settings are read. -/
theorem checkPasswordRequirements_eq (env : Env) (db : DB) (password : String)
    (settings : Settings) (hs : data.GetSettings env db = .ok settings) :
    checkPasswordRequirements env db password =
      if (requirements env settings).all
          (fun r => hasMinimumCount password r.minCount r.countFunc)
      then none
      else some (.validation [("password", configuredRequirements env settings)]) := by
  unfold checkPasswordRequirements
  rw [hs]
  simp only [foldl_requirementStep, Bool.true_and, List.nil_append, filterMap_rowMessage,
    configuredRequirements]
  cases (requirements env settings).all
    (fun r => hasMinimumCount password r.minCount r.countFunc) <;> simp

theorem all_requirements_iff (env : Env) (settings : Settings) (password : String) :
    (requirements env settings).all
        (fun r => hasMinimumCount password r.minCount r.countFunc) = true ↔
      settings.LengthMin ≤ (password.length : Int) ∧
      settings.LowercaseMin ≤ (password.data.countP env.IsLower : Int) ∧
      settings.UppercaseMin ≤ (password.data.countP env.IsUpper : Int) ∧
      settings.NumberMin ≤ (password.data.countP env.IsDigit : Int) ∧
      settings.SymbolMin ≤ (password.data.countP isSymbol : Int) := by
  have hlen : password.data.countP (fun _ => true) = password.length := by
    rw [List.countP_true]; rfl
  simp only [requirements, List.all_cons, List.all_nil, Bool.and_true, Bool.and_eq_true,
    hasMinimumCount_iff, hlen]

theorem unmet_row_configured (password : String) (r : Requirement)
    (h : hasMinimumCount password r.minCount r.countFunc = false) : 1 ≤ r.minCount := by
  have h1 : ¬ r.minCount ≤ (password.data.countP r.countFunc : Int) := by
    rw [← hasMinimumCount_iff]; simp [h]
  omega

theorem unmet_sublist_configured (env : Env) (settings : Settings) (password : String) :
    (unmetRequirements env settings password).Sublist (configuredRequirements env settings) := by
  unfold unmetRequirements configuredRequirements
  apply List.Sublist.map
  have hfil : (requirements env settings).filter
        (fun r => !hasMinimumCount password r.minCount r.countFunc) =
      ((requirements env settings).filter (fun r => decide (1 ≤ r.minCount))).filter
        (fun r => !hasMinimumCount password r.minCount r.countFunc) := by
    rw [List.filter_filter]
    apply List.filter_congr
    intro r _
    cases h : hasMinimumCount password r.minCount r.countFunc
    · simp [unmet_row_configured password r h]
    · simp
  rw [hfil]
  exact List.filter_sublist _

/-! ## Lemmas on the credential store -/

theorem foldl_without_eq (without : String) (s acc : List String) :
    s.foldl (fun result v => if v != without then result ++ [v] else result) acc =
      acc ++ s.filter (fun v => v != without) := by
  induction s generalizing acc with
  | nil => simp
  | cons v t ih =>
    rw [List.foldl_cons, ih, List.filter_cons]
    by_cases h : (v != without) = true
    · simp [h]
    · simp [h]

theorem sliceWithoutElement_eq_filter (s : List String) (without : String) :
    sliceWithoutElement s without = s.filter (fun v => v != without) := by
  unfold sliceWithoutElement
  rw [foldl_without_eq, List.nil_append]

theorem find?_credential_append (l : List Credential) (c : Credential)
    (hnone : l.any (fun x => x.IdentityID == c.IdentityID) = false) :
    (l ++ [c]).find? (fun x => x.IdentityID == c.IdentityID) = some c := by
  induction l with
  | nil => simp
  | cons a t ih =>
    rw [List.any_cons, Bool.or_eq_false_iff] at hnone
    rw [List.cons_append, List.find?_cons, hnone.1]
    exact ih hnone.2

theorem find?_credential_replace (l : List Credential) (c0 c : Credential)
    (hfound : l.find? (fun x => x.IdentityID == c.IdentityID) = some c0) :
    (l.map (fun x => if x.IdentityID == c.IdentityID then c else x)).find?
      (fun x => x.IdentityID == c.IdentityID) = some c := by
  induction l with
  | nil => simp at hfound
  | cons a t ih =>
    rw [List.map_cons, List.find?_cons]
    by_cases ha : (a.IdentityID == c.IdentityID) = true
    · simp [ha]
    · rw [List.find?_cons] at hfound
      simp only [ha] at hfound
      simp only [ha, Bool.false_eq_true, if_false]
      exact ih hfound

theorem data_GetCredentialByUserID_ok (env : Env) (db : DB) (userID : Nat) (c : Credential)
    (h : data.GetCredentialByUserID env db userID = .ok c) :
    db.credentials.find? (fun x => x.IdentityID == userID) = some c ∧ c.IdentityID = userID := by
  unfold data.GetCredentialByUserID at h
  split at h
  · exact absurd h (by simp)
  · split at h
    · rename_i c1 hfind
      have hc : c1 = c := by simpa using h
      subst hc
      refine ⟨hfind, ?_⟩
      have := List.find?_some hfind
      simpa using this
    · exact absurd h (by simp)

theorem IsAuthorized_without_role (rCtx : RequestContext) (role : String)
    (hrole : ∀ principal, rCtx.Authenticated.User = some principal →
      holdsRole rCtx.DBTxn principal role = false) :
    IsAuthorized rCtx role = some .ErrForbidden := by
  unfold IsAuthorized
  split
  · rfl
  · rename_i principal hp
    rw [hrole principal hp]
    rfl

theorem HandleAuthErr_forbidden (resource operation role : String) :
    HandleAuthErr .ErrForbidden resource operation role =
      .authorization resource operation [role] := by
  rfl

theorem data_CreateCredential_ok (env : Env) (db db1 : DB) (c : Credential)
    (h : data.CreateCredential env db c = .ok db1) :
    db.credentials.any (fun x => x.IdentityID == c.IdentityID) = false ∧
      db1 = { db with credentials := db.credentials ++ [c] } := by
  unfold data.CreateCredential at h
  split at h
  · exact absurd h (by simp)
  · split at h
    · exact absurd h (by simp)
    · rename_i hany
      refine ⟨by simpa using hany, ?_⟩
      simpa using h.symm

theorem data_UpdateCredential_ok (env : Env) (db db1 : DB) (c : Credential)
    (h : data.UpdateCredential env db c = .ok db1) :
    db1 = { db with credentials :=
      (db.credentials.map (fun x => if x.IdentityID == c.IdentityID then c else x)) } := by
  unfold data.UpdateCredential at h
  split at h
  · exact absurd h (by simp)
  · simpa using h.symm

theorem data_UpdateAccessKey_ok (env : Env) (db db1 : DB) (key : AccessKey)
    (h : data.UpdateAccessKey env db key = .ok db1) :
    db1 = { db with accessKeys :=
      (db.accessKeys.map (fun k => if k.ID == key.ID then key else k)) } := by
  unfold data.UpdateAccessKey at h
  split at h
  · exact absurd h (by simp)
  · simpa using h.symm

theorem data_CreateProviderUser_ok (env : Env) (db db1 : DB) (provider : Nat) (ident : Identity)
    (pu : ProviderUser)
    (h : data.CreateProviderUser env db provider ident = .ok (pu, db1)) :
    db1.credentials = db.credentials ∧ db1.accessKeys = db.accessKeys ∧
      db1.settings = db.settings := by
  unfold data.CreateProviderUser at h
  split at h
  · exact absurd h (by simp)
  · simp only at h
    split at h
    · have hdb : db = db1 := by
        simp only [Except.ok.injEq, Prod.mk.injEq] at h
        exact h.2
      subst hdb
      exact ⟨rfl, rfl, rfl⟩
    · have hdb : db1 = { db with providerUsers := db.providerUsers ++
          [{ ProviderID := provider, IdentityID := ident.ID }] } := by
        simp only [Except.ok.injEq, Prod.mk.injEq] at h
        exact h.2.symm
      subst hdb
      exact ⟨rfl, rfl, rfl⟩

theorem updateCredential_rejected (env : Env) (rCtx : RequestContext) (user : Identity)
    (newPassword : String) (isSelf : Bool) (err : Err)
    (hnew : checkPasswordRequirements env rCtx.DBTxn newPassword = some err ∨
      (checkPasswordRequirements env rCtx.DBTxn newPassword = none ∧
        checkBadPasswords env newPassword = some err)) :
    updateCredential env rCtx user newPassword isSelf = (some err, rCtx) := by
  unfold updateCredential
  rcases hnew with h | ⟨h1, h2⟩
  · simp only [h]
  · simp only [h1, h2]

/-- What a successful `updateCredential` leaves behind. -/
theorem updateCredential_ok (env : Env) (rCtx rCtx1 : RequestContext) (user : Identity)
    (newPassword : String) (isSelf : Bool)
    (h : updateCredential env rCtx user newPassword isSelf = (none, rCtx1)) :
    ∃ hash, env.GenerateFromPassword newPassword = .ok hash ∧
      rCtx1.DBTxn.credentials.find? (fun c => c.IdentityID == user.ID) =
        some { IdentityID := user.ID, PasswordHash := hash, OneTimePassword := !isSelf } ∧
      rCtx1.Authenticated.AccessKey =
        (if isSelf then
          rCtx.Authenticated.AccessKey.map (fun key =>
            { key with Scopes := sliceWithoutElement key.Scopes env.ScopePasswordReset })
        else rCtx.Authenticated.AccessKey) ∧
      (∀ key, isSelf = true → rCtx.Authenticated.AccessKey = some key →
        rCtx1.DBTxn.accessKeys =
          rCtx.DBTxn.accessKeys.map (fun k =>
            if k.ID == key.ID then
              { key with Scopes := sliceWithoutElement key.Scopes env.ScopePasswordReset }
            else k)) := by
  unfold updateCredential at h
  cases h1 : checkPasswordRequirements env rCtx.DBTxn newPassword with
  | some e => simp [h1] at h
  | none =>
  cases h2 : checkBadPasswords env newPassword with
  | some e => simp [h1, h2] at h
  | none =>
  cases h3 : env.GenerateFromPassword newPassword with
  | error e => simp [h1, h2, h3] at h
  | ok hash =>
  refine ⟨hash, rfl, ?_⟩
  cases h4 : data.GetCredentialByUserID env rCtx.DBTxn user.ID with
  | error e =>
    simp only [h1, h2, h3, h4] at h
    split at h
    · rename_i hcond
      have hself : isSelf = false := by
        cases isSelf <;> simp_all
      subst hself
      split at h
      · simp at h
      · rename_i db1 hcreate
        obtain ⟨hany, hdb1⟩ := data_CreateCredential_ok env _ _ _ hcreate
        have hr : rCtx1 = { rCtx with DBTxn := db1 } := by simpa using h.symm
        subst hr
        subst hdb1
        exact ⟨find?_credential_append _ _ hany, by simp, by intro key hs; cases hs⟩
    · simp at h
  | ok credential =>
    obtain ⟨hfind, hid⟩ := data_GetCredentialByUserID_ok env _ _ _ h4
    simp only [h1, h2, h3, h4] at h
    split at h
    · simp at h
    · rename_i db1 hupdate
      have hdb1 := data_UpdateCredential_ok env _ _ _ hupdate
      have hstored : db1.credentials.find? (fun c => c.IdentityID == user.ID) =
          some { IdentityID := user.ID, PasswordHash := hash, OneTimePassword := !isSelf } := by
        subst hdb1
        have := find?_credential_replace rCtx.DBTxn.credentials credential
          { IdentityID := user.ID, PasswordHash := hash, OneTimePassword := !isSelf } hfind
        simpa [hid] using this
      have hkeys : db1.accessKeys = rCtx.DBTxn.accessKeys := by rw [hdb1]
      cases isSelf with
      | false =>
        have hr : rCtx1 = { rCtx with DBTxn := db1 } := by simpa using h.symm
        subst hr
        exact ⟨hstored, by simp, by intro key hs; cases hs⟩
      | true =>
        simp only [if_true] at h
        cases hkey : rCtx.Authenticated.AccessKey with
        | none =>
          simp only [hkey] at h
          have hr : rCtx1 = { rCtx with DBTxn := db1 } := by simpa using h.symm
          subst hr
          exact ⟨hstored, by simp [hkey], by intro key _ hk; cases hk⟩
        | some key =>
          simp only [hkey] at h
          split at h
          · simp at h
          · rename_i db2 hupd
            have hdb2 := data_UpdateAccessKey_ok env _ _ _ hupd
            have hr := (Prod.mk.inj h).2.symm
            subst hr
            subst hdb2
            refine ⟨hstored, by simp, ?_⟩
            intro key0 _ hk
            cases hk
            simp [hkeys]

theorem cryptoRandomFrom_length (env : Env) (charset : List Char) (n i : Nat)
    (chars : List Char) (h : cryptoRandomFrom env charset i n = .ok chars) :
    chars.length = n := by
  induction n generalizing i chars with
  | zero =>
    have : chars = [] := by simpa [cryptoRandomFrom] using h.symm
    simp [this]
  | succ n ih =>
    unfold cryptoRandomFrom at h
    split at h
    · simp at h
    · split at h
      · simp at h
      · split at h
        · simp at h
        · rename_i ch _ _ rest hrest
          have hc : chars = ch :: rest := by simpa using h.symm
          rw [hc, List.length_cons, ih _ _ hrest]

theorem CryptoRandom_length (env : Env) (n : Nat) (charset password : String)
    (h : CryptoRandom env n charset = .ok password) : password.length = n := by
  unfold CryptoRandom at h
  split at h
  · simp at h
  · rename_i chars hchars
    have hp : password = ⟨chars⟩ := by simpa using h.symm
    rw [hp]
    exact cryptoRandomFrom_length env _ _ _ _ hchars

theorem scanFinds_iff (password : String) (lines : List String) :
    scanFinds password lines = true ↔ password ∈ lines := by
  induction lines with
  | nil => simp [scanFinds]
  | cons text rest ih =>
    unfold scanFinds
    by_cases h : text = password
    · simp [h]
    · have h2 : ¬ password = text := fun e => h e.symm
      simp [h, h2, ih]

/-! ## Properties of the password policy evaluator -/

/-- C1: for every settings record and every password whose number of code points, lowercase
letters, uppercase letters, digits and symbols are each at least the configured minimum,
`checkPasswordRequirements` returns no error. -/
theorem checkPasswordRequirements_accepts (env : Env) (db : DB) (settings : Settings)
    (password : String)
    (hs : data.GetSettings env db = .ok settings)
    (hlength : settings.LengthMin ≤ (password.length : Int))
    (hlower : settings.LowercaseMin ≤ (password.data.countP env.IsLower : Int))
    (hupper : settings.UppercaseMin ≤ (password.data.countP env.IsUpper : Int))
    (hnumber : settings.NumberMin ≤ (password.data.countP env.IsDigit : Int))
    (hsymbol : settings.SymbolMin ≤ (password.data.countP isSymbol : Int)) :
    checkPasswordRequirements env db password = none := by
  rw [checkPasswordRequirements_eq env db password settings hs,
    (all_requirements_iff env settings password).2 ⟨hlength, hlower, hupper, hnumber, hsymbol⟩]
  rfl

/-- Witness of C1: the policy length 8, one uppercase letter, one number and the
password "Abcdefg1". -/
theorem checkPasswordRequirements_accepts_witness :
    checkPasswordRequirements asciiEnv
      { settings := { LengthMin := 8, UppercaseMin := 1, NumberMin := 1 } } "Abcdefg1" = none :=
  checkPasswordRequirements_accepts asciiEnv
    { settings := { LengthMin := 8, UppercaseMin := 1, NumberMin := 1 } }
    { LengthMin := 8, UppercaseMin := 1, NumberMin := 1 } "Abcdefg1"
    rfl (by decide) (by decide) (by decide) (by decide) (by decide)

/-- C2, as the code has it: for every settings record and every password that falls short of
at least one configured minimum, the messages of the returned error are exactly one
requirement string per category whose configured minimum is at least 1, in table order,
whether the password meets that category or not; the strings of the unmet categories are
among them, in the same order. -/
theorem checkPasswordRequirements_messages (env : Env) (db : DB) (settings : Settings)
    (password : String)
    (hs : data.GetSettings env db = .ok settings)
    (hshort : ∃ r ∈ requirements env settings,
      hasMinimumCount password r.minCount r.countFunc = false) :
    checkPasswordRequirements env db password =
        some (.validation [("password", configuredRequirements env settings)]) ∧
      (unmetRequirements env settings password).Sublist
        (configuredRequirements env settings) := by
  refine ⟨?_, unmet_sublist_configured env settings password⟩
  rw [checkPasswordRequirements_eq env db password settings hs]
  have hall : (requirements env settings).all
      (fun r => hasMinimumCount password r.minCount r.countFunc) = false := by
    obtain ⟨r, hr, hfalse⟩ := hshort
    rw [Bool.eq_false_iff]
    intro hall
    rw [List.all_eq_true] at hall
    rw [hall r hr] at hfalse
    exact Bool.noConfusion hfalse
  rw [hall]
  rfl

/-- Witness of C2 as amended: minimum length 1 and one symbol, password "a". -/
theorem checkPasswordRequirements_messages_witness :
    checkPasswordRequirements asciiEnv { settings := { LengthMin := 1, SymbolMin := 1 } } "a" =
        some (.validation [("password",
          configuredRequirements asciiEnv { LengthMin := 1, SymbolMin := 1 })]) ∧
      (unmetRequirements asciiEnv { LengthMin := 1, SymbolMin := 1 } "a").Sublist
        (configuredRequirements asciiEnv { LengthMin := 1, SymbolMin := 1 }) :=
  checkPasswordRequirements_messages asciiEnv { settings := { LengthMin := 1, SymbolMin := 1 } }
    { LengthMin := 1, SymbolMin := 1 } "a" rfl
    ⟨⟨1, isSymbol, "%d symbol", "%d symbols"⟩, by simp [requirements], by decide⟩

/-- Counterexample to C2 as stated: with minimum length 1 and one symbol, the password "a"
meets the length minimum and lacks a symbol, yet the error lists "1 character" next to
"1 symbol", so the messages are not the strings of the unmet categories only. -/
theorem checkPasswordRequirements_lists_met_category :
    hasMinimumCount "a" 1 (fun _ => true) = true ∧
      hasMinimumCount "a" 1 isSymbol = false ∧
      checkPasswordRequirements asciiEnv { settings := { LengthMin := 1, SymbolMin := 1 } } "a" =
        some (.validation [("password", ["1 character", "1 symbol"])]) ∧
      unmetRequirements asciiEnv { LengthMin := 1, SymbolMin := 1 } "a" = ["1 symbol"] ∧
      checkPasswordRequirements asciiEnv { settings := { LengthMin := 1, SymbolMin := 1 } } "a" ≠
        some (.validation [("password",
          unmetRequirements asciiEnv { LengthMin := 1, SymbolMin := 1 } "a")]) := by
  decide

/-- C10: whenever `checkPasswordRequirements` rejects a password, the error is a validation
error whose only field key is "password" and whose message list is non-empty. -/
theorem checkPasswordRequirements_rejection (env : Env) (db : DB) (settings : Settings)
    (password : String) (err : Err)
    (hs : data.GetSettings env db = .ok settings)
    (hreject : checkPasswordRequirements env db password = some err) :
    ∃ msgs : List String, err = .validation [("password", msgs)] ∧ msgs ≠ [] := by
  rw [checkPasswordRequirements_eq env db password settings hs] at hreject
  cases hall : (requirements env settings).all
      (fun r => hasMinimumCount password r.minCount r.countFunc) with
  | true => rw [hall] at hreject; simp at hreject
  | false =>
    rw [hall] at hreject
    simp only [Bool.false_eq_true, if_false, Option.some.injEq] at hreject
    refine ⟨configuredRequirements env settings, hreject.symm, ?_⟩
    have hex : ∃ r ∈ requirements env settings,
        hasMinimumCount password r.minCount r.countFunc = false := by
      by_contra hno
      push_neg at hno
      have : (requirements env settings).all
          (fun r => hasMinimumCount password r.minCount r.countFunc) = true := by
        rw [List.all_eq_true]
        intro r hr
        simpa using hno r hr
      rw [this] at hall
      exact Bool.noConfusion hall
    obtain ⟨r, hr, hfalse⟩ := hex
    have hmem : requirementString r ∈ configuredRequirements env settings := by
      unfold configuredRequirements
      apply List.mem_map_of_mem
      rw [List.mem_filter]
      exact ⟨hr, by simpa using unmet_row_configured password r hfalse⟩
    intro hnil
    rw [hnil] at hmem
    exact absurd hmem (List.not_mem_nil _)

/-- Witness of C10: the policy of minimum length 8 rejects "short". -/
theorem checkPasswordRequirements_rejection_witness :
    checkPasswordRequirements asciiEnv { settings := { LengthMin := 8 } } "short" =
        some (.validation [("password", ["8 characters"])]) ∧
      ∃ msgs : List String,
        Err.validation [("password", ["8 characters"])] = .validation [("password", msgs)] ∧
          msgs ≠ [] :=
  ⟨by decide,
    checkPasswordRequirements_rejection asciiEnv { settings := { LengthMin := 8 } }
      { LengthMin := 8 } "short" (.validation [("password", ["8 characters"])]) rfl (by decide)⟩

/-! ## Properties of the credential store -/

/-- C3: a self-update through `UpdateCredential` whose oldPassword is empty or does not match
the stored password hash returns a validation error keyed by the field "oldPassword", and
leaves the request context, hence every stored credential and access key, unchanged. -/
theorem UpdateCredential_wrong_old_password (env : Env) (rCtx : RequestContext)
    (user : Identity) (oldPassword newPassword : String)
    (hself : isIdentitySelf rCtx user.ID = true)
    (hold : oldPassword = "" ∨ ∃ credential err,
      data.GetCredentialByUserID env rCtx.DBTxn user.ID = .ok credential ∧
        env.CompareHashAndPassword credential.PasswordHash oldPassword = some err) :
    ∃ msgs : List String, msgs ≠ [] ∧
      UpdateCredential env rCtx user oldPassword newPassword =
        (some (.validation [("oldPassword", msgs)]), rCtx) := by
  unfold UpdateCredential
  rcases hold with hempty | ⟨credential, err, hget, hcmp⟩
  · refine ⟨["is required"], by simp, ?_⟩
    simp [hself, hempty]
  · by_cases hempty : oldPassword = ""
    · refine ⟨["is required"], by simp, ?_⟩
      simp [hself, hempty]
    · refine ⟨["invalid oldPassword"], by simp, ?_⟩
      simp [hself, hempty, hget, hcmp]

/-- Witness of C3: user 7 presents the wrong old password. -/
theorem UpdateCredential_wrong_old_password_witness :
    ∃ msgs : List String, msgs ≠ [] ∧
      UpdateCredential asciiEnv selfRequest { ID := 7 } "guess" "New-passw0rd" =
        (some (.validation [("oldPassword", msgs)]), selfRequest) :=
  UpdateCredential_wrong_old_password asciiEnv selfRequest { ID := 7 } "guess" "New-passw0rd"
    (by decide)
    (Or.inr ⟨{ IdentityID := 7, PasswordHash := "Old-passw0rd".data.map Char.toNat,
               OneTimePassword := true },
      .external "crypto/bcrypt: hashedPassword is not the hash of the given password",
      rfl, by decide⟩)

/-- C4: when the caller of `UpdateCredential` is not the identity being updated and does not
hold the admin role, `UpdateCredential` returns an authorization error and leaves the request
context unchanged: no credential is created or changed, no provider user is created. -/
theorem UpdateCredential_requires_admin (env : Env) (rCtx : RequestContext) (user : Identity)
    (oldPassword newPassword : String)
    (hother : isIdentitySelf rCtx user.ID = false)
    (hrole : ∀ principal, rCtx.Authenticated.User = some principal →
      holdsRole rCtx.DBTxn principal env.InfraAdminRole = false) :
    UpdateCredential env rCtx user oldPassword newPassword =
      (some (.authorization "user" "update" [env.InfraAdminRole]), rCtx) := by
  unfold UpdateCredential
  simp only [hother, IsAuthorized_without_role rCtx env.InfraAdminRole hrole,
    HandleAuthErr_forbidden]
  rfl

/-- Witness of C4: user 7, who holds no grant, updates the credential of user 8. -/
theorem UpdateCredential_requires_admin_witness :
    UpdateCredential asciiEnv selfRequest { ID := 8 } "" "New-passw0rd" =
      (some (.authorization "user" "update" ["admin"]), selfRequest) :=
  UpdateCredential_requires_admin asciiEnv selfRequest { ID := 8 } "" "New-passw0rd"
    (by decide) (by intro principal _; rfl)

/-- C5, as the code has it: if newPassword fails `checkPasswordRequirements`, or passes it and
fails `checkBadPasswords`, then for every caller `UpdateCredential` returns an error and
leaves the request context unchanged (no hash is stored, the access key keeps its scopes);
and for a caller that passes the checks made before it (an admin updating another identity,
or the owner presenting a non-empty oldPassword that matches the stored hash) the error
returned is the error of that check. -/
theorem UpdateCredential_new_password_rejected (env : Env) (rCtx : RequestContext)
    (user : Identity) (oldPassword newPassword : String) (err : Err)
    (hnew : checkPasswordRequirements env rCtx.DBTxn newPassword = some err ∨
      (checkPasswordRequirements env rCtx.DBTxn newPassword = none ∧
        checkBadPasswords env newPassword = some err)) :
    (∃ e, UpdateCredential env rCtx user oldPassword newPassword = (some e, rCtx)) ∧
      ((isIdentitySelf rCtx user.ID = false ∧ IsAuthorized rCtx env.InfraAdminRole = none) ∨
        (isIdentitySelf rCtx user.ID = true ∧ oldPassword ≠ "" ∧
          ∃ credential, data.GetCredentialByUserID env rCtx.DBTxn user.ID = .ok credential ∧
            env.CompareHashAndPassword credential.PasswordHash oldPassword = none) →
        UpdateCredential env rCtx user oldPassword newPassword = (some err, rCtx)) := by
  have hupd := updateCredential_rejected env rCtx user newPassword
    (isIdentitySelf rCtx user.ID) err hnew
  constructor
  · unfold UpdateCredential
    simp only [hupd]
    split
    · exact ⟨_, rfl⟩
    · split
      · exact ⟨_, rfl⟩
      · exact ⟨_, rfl⟩
  · intro hpass
    unfold UpdateCredential
    simp only [hupd]
    rcases hpass with ⟨hother, hadmin⟩ | ⟨hself, hne, credential, hget, hcmp⟩
    · simp [hother, hadmin]
    · simp [hself, hne, hget, hcmp]

/-- Witness of C5 as amended: user 7 presents the right old password and a new password
shorter than the minimum length. -/
theorem UpdateCredential_new_password_rejected_witness :
    (∃ e, UpdateCredential asciiEnv selfRequest { ID := 7 } "Old-passw0rd" "short" =
        (some e, selfRequest)) ∧
      UpdateCredential asciiEnv selfRequest { ID := 7 } "Old-passw0rd" "short" =
        (some (.validation [("password", ["8 characters"])]), selfRequest) :=
  have h := UpdateCredential_new_password_rejected asciiEnv selfRequest { ID := 7 }
    "Old-passw0rd" "short" (.validation [("password", ["8 characters"])])
    (Or.inl (by decide))
  ⟨h.1, h.2 (Or.inr ⟨by decide, by decide,
    { IdentityID := 7, PasswordHash := "Old-passw0rd".data.map Char.toNat,
      OneTimePassword := true }, rfl, by decide⟩)⟩

/-- Counterexample to C5 as stated: user 7 updates their own password, presents no old
password and a new password that fails the policy; the error returned is the "oldPassword"
validation error, not the error of `checkPasswordRequirements`. -/
theorem UpdateCredential_old_password_checked_first :
    isIdentitySelf selfRequest 7 = true ∧
      checkPasswordRequirements asciiEnv selfRequest.DBTxn "short" =
        some (.validation [("password", ["8 characters"])]) ∧
      (UpdateCredential asciiEnv selfRequest { ID := 7 } "" "short").1 =
        some (.validation [("oldPassword", ["is required"])]) ∧
      (UpdateCredential asciiEnv selfRequest { ID := 7 } "" "short").1 ≠
        checkPasswordRequirements asciiEnv selfRequest.DBTxn "short" := by
  decide

/-- C6: after every successful `UpdateCredential` the credential of the identity holds the
hash of newPassword, and its one-time-password flag is set exactly when the update was not a
self-update. -/
theorem UpdateCredential_stores_hash (env : Env) (rCtx rCtx1 : RequestContext)
    (user : Identity) (oldPassword newPassword : String)
    (hok : UpdateCredential env rCtx user oldPassword newPassword = (none, rCtx1)) :
    ∃ hash, env.GenerateFromPassword newPassword = .ok hash ∧
      rCtx1.DBTxn.credentials.find? (fun c => c.IdentityID == user.ID) =
        some { IdentityID := user.ID, PasswordHash := hash,
               OneTimePassword := !isIdentitySelf rCtx user.ID } := by
  unfold UpdateCredential at hok
  simp only at hok
  split at hok
  · simp at hok
  · split at hok
    · simp at hok
    · split at hok
      · simp at hok
      · rename_i rCtx2 hupd
        obtain ⟨hash, hgen, hstored, _, _⟩ := updateCredential_ok env _ _ _ _ _ hupd
        refine ⟨hash, hgen, ?_⟩
        split at hok
        · split at hok
          · have hr : rCtx1 = rCtx2 := by simpa using hok.symm
            rw [hr]; exact hstored
          · rename_i pu db2 hpu
            obtain ⟨hcred, _, _⟩ := data_CreateProviderUser_ok env _ _ _ _ _ hpu
            have hr : rCtx1 = { rCtx2 with DBTxn := db2 } := by simpa using hok.symm
            rw [hr]
            simpa [hcred] using hstored
        · have hr : rCtx1 = rCtx2 := by simpa using hok.symm
          rw [hr]; exact hstored

/-- C7: after a successful self-update through `UpdateCredential`, the scope list of the
access key that authenticated the request contains no password-reset scope and is otherwise
the original list, its remaining scopes in their original order; the key is otherwise
unchanged, and it replaces the stored access key of the same ID. -/
theorem UpdateCredential_strips_reset_scope (env : Env) (rCtx rCtx1 : RequestContext)
    (user : Identity) (oldPassword newPassword : String) (key : AccessKey)
    (hok : UpdateCredential env rCtx user oldPassword newPassword = (none, rCtx1))
    (hself : isIdentitySelf rCtx user.ID = true)
    (hkey : rCtx.Authenticated.AccessKey = some key) :
    ∃ key1, rCtx1.Authenticated.AccessKey = some key1 ∧
      env.ScopePasswordReset ∉ key1.Scopes ∧
      key1.Scopes = key.Scopes.filter (fun scope => scope != env.ScopePasswordReset) ∧
      key1.ID = key.ID ∧ key1.IssuedFor = key.IssuedFor ∧
      rCtx1.DBTxn.accessKeys =
        rCtx.DBTxn.accessKeys.map (fun k => if k.ID == key.ID then key1 else k) := by
  unfold UpdateCredential at hok
  simp only [hself] at hok
  split at hok
  · simp at hok
  · split at hok
    · simp at hok
    · split at hok
      · simp at hok
      · rename_i rCtx2 hupd
        obtain ⟨_, _, _, hak, hstoredKeys⟩ := updateCredential_ok env _ _ _ _ _ hupd
        have hr : rCtx1 = rCtx2 := by simpa using hok.symm
        subst hr
        rw [hkey] at hak
        simp only [if_true, Option.map] at hak
        refine ⟨_, hak, ?_, ?_, rfl, rfl, hstoredKeys key rfl hkey⟩
        · simp [sliceWithoutElement_eq_filter]
        · exact sliceWithoutElement_eq_filter _ _

/-- Witness of C6: user 7 changes their own password. -/
theorem UpdateCredential_stores_hash_witness :
    ∃ hash, asciiEnv.GenerateFromPassword "New-passw0rd" = .ok hash ∧
      (UpdateCredential asciiEnv selfRequest { ID := 7 } "Old-passw0rd"
          "New-passw0rd").2.DBTxn.credentials.find? (fun c => c.IdentityID == 7) =
        some { IdentityID := 7, PasswordHash := hash,
               OneTimePassword := !isIdentitySelf selfRequest 7 } :=
  UpdateCredential_stores_hash asciiEnv selfRequest
    (UpdateCredential asciiEnv selfRequest { ID := 7 } "Old-passw0rd" "New-passw0rd").2
    { ID := 7 } "Old-passw0rd" "New-passw0rd" (by decide)

/-- Witness of C7: the access key of user 7 carries the scopes password-reset and login. -/
theorem UpdateCredential_strips_reset_scope_witness :
    ∃ key1, (UpdateCredential asciiEnv selfRequest { ID := 7 } "Old-passw0rd"
          "New-passw0rd").2.Authenticated.AccessKey = some key1 ∧
      asciiEnv.ScopePasswordReset ∉ key1.Scopes ∧
      key1.Scopes = ["password-reset", "login"].filter
        (fun scope => scope != asciiEnv.ScopePasswordReset) ∧
      key1.ID = 3 ∧ key1.IssuedFor = 7 ∧
      (UpdateCredential asciiEnv selfRequest { ID := 7 } "Old-passw0rd"
          "New-passw0rd").2.DBTxn.accessKeys =
        selfRequest.DBTxn.accessKeys.map (fun k => if k.ID == 3 then key1 else k) :=
  UpdateCredential_strips_reset_scope asciiEnv selfRequest
    (UpdateCredential asciiEnv selfRequest { ID := 7 } "Old-passw0rd" "New-passw0rd").2
    { ID := 7 } "Old-passw0rd" "New-passw0rd"
    { ID := 3, IssuedFor := 7, Scopes := ["password-reset", "login"] }
    (by decide) (by decide) rfl

/-- C8: `CreateCredential` fails with an authorization error, the request context unchanged,
when the caller does not hold the admin role; on success it returns a 12-character password
and the store holds a credential for user.ID whose one-time-password flag is set and whose
hash is the hash of the returned password. -/
theorem CreateCredential_admin_only (env : Env) (rCtx : RequestContext) (user : Identity) :
    ((∀ principal, rCtx.Authenticated.User = some principal →
        holdsRole rCtx.DBTxn principal env.InfraAdminRole = false) →
      CreateCredential env rCtx user =
        (.error (.authorization "user" "create" [env.InfraAdminRole]), rCtx)) ∧
    (∀ password rCtx1, CreateCredential env rCtx user = (.ok password, rCtx1) →
      password.length = 12 ∧
      ∃ hash, env.GenerateFromPassword password = .ok hash ∧
        rCtx1.DBTxn.credentials.find? (fun c => c.IdentityID == user.ID) =
          some { IdentityID := user.ID, PasswordHash := hash, OneTimePassword := true }) := by
  constructor
  · intro hrole
    unfold CreateCredential RequireInfraRole
    simp only [IsAuthorized_without_role rCtx env.InfraAdminRole hrole, HandleAuthErr_forbidden]
  · intro password rCtx1 hok
    unfold CreateCredential at hok
    split at hok
    · simp at hok
    · rename_i db hdb
      have hdbeq : db = rCtx.DBTxn := by
        unfold RequireInfraRole at hdb
        split at hdb
        · simp at hdb
        · simpa using hdb.symm
      subst hdbeq
      split at hok
      · simp at hok
      · rename_i tmpPassword hgen
        split at hok
        · simp at hok
        · rename_i hash hhash
          split at hok
          · simp at hok
          · rename_i db1 hcreate
            obtain ⟨hany, hdb1⟩ := data_CreateCredential_ok env _ _ _ hcreate
            have hstored : db1.credentials.find? (fun c => c.IdentityID == user.ID) =
                some { IdentityID := user.ID, PasswordHash := hash, OneTimePassword := true } := by
              subst hdb1
              exact find?_credential_append _ _ hany
            split at hok
            · simp at hok
            · rename_i pu db2 hpu
              obtain ⟨hcred, _, _⟩ := data_CreateProviderUser_ok env _ _ _ _ _ hpu
              simp only [Prod.mk.injEq, Except.ok.injEq] at hok
              obtain ⟨hp, hr⟩ := hok
              subst hp
              subst hr
              refine ⟨CryptoRandom_length env _ _ _ hgen, hash, hhash, ?_⟩
              simpa [hcred] using hstored

/-- Witness of C8: user 7 holds no grant and is refused; the administrator 1 creates the
credential of user 9. -/
theorem CreateCredential_admin_only_witness :
    CreateCredential asciiEnv selfRequest { ID := 9 } =
        (.error (.authorization "user" "create" ["admin"]), selfRequest) ∧
      ("aaaaaaaaaaaa".length = 12 ∧
        ∃ hash, asciiEnv.GenerateFromPassword "aaaaaaaaaaaa" = .ok hash ∧
          (CreateCredential asciiEnv adminRequest { ID := 9 }).2.DBTxn.credentials.find?
              (fun c => c.IdentityID == 9) =
            some { IdentityID := 9, PasswordHash := hash, OneTimePassword := true }) :=
  ⟨(CreateCredential_admin_only asciiEnv selfRequest { ID := 9 }).1
      (by intro principal _; rfl),
    (CreateCredential_admin_only asciiEnv adminRequest { ID := 9 }).2 "aaaaaaaaaaaa"
      (CreateCredential asciiEnv adminRequest { ID := 9 }).2 rfl⟩

/-! ## Properties of the deny-list check -/

/-- C9, as the code has it: `checkBadPasswords` returns an error if and only if a deny-list
file is configured and either the file cannot be opened, or the password is equal, verbatim,
to one of its lines, or closing the file fails; the error for a listed password is the
bad-request error "cannot use a common password"; with no deny-list configured it returns
nil for every password. -/
theorem checkBadPasswords_error_iff (env : Env) (password : String) :
    ((checkBadPasswords env password).isSome = true ↔
      env.Getenv "INFRA_SERVER_BAD_PASSWORDS_FILE" ≠ "" ∧
        ((∃ err, env.Open (env.Getenv "INFRA_SERVER_BAD_PASSWORDS_FILE") = .error err) ∨
          ∃ file, env.Open (env.Getenv "INFRA_SERVER_BAD_PASSWORDS_FILE") = .ok file ∧
            (password ∈ file.lines ∨ file.closeErr.isSome = true))) ∧
    (∀ file, env.Getenv "INFRA_SERVER_BAD_PASSWORDS_FILE" ≠ "" →
      env.Open (env.Getenv "INFRA_SERVER_BAD_PASSWORDS_FILE") = .ok file →
      password ∈ file.lines →
      checkBadPasswords env password =
        some (.wrapf "%w: cannot use a common password" .ErrBadRequest)) ∧
    (env.Getenv "INFRA_SERVER_BAD_PASSWORDS_FILE" = "" →
      checkBadPasswords env password = none) := by
  refine ⟨?_, ?_, ?_⟩
  · unfold checkBadPasswords
    by_cases hpath : env.Getenv "INFRA_SERVER_BAD_PASSWORDS_FILE" = ""
    · simp [hpath]
    · cases hopen : env.Open (env.Getenv "INFRA_SERVER_BAD_PASSWORDS_FILE") with
      | error err => simp [hpath, hopen]
      | ok file =>
        by_cases hmem : password ∈ file.lines
        · simp [hpath, hopen, (scanFinds_iff password file.lines).2 hmem, hmem]
        · have hscan : scanFinds password file.lines = false := by
            rw [Bool.eq_false_iff]
            exact fun h => hmem ((scanFinds_iff password file.lines).1 h)
          cases hclose : file.closeErr <;> simp [hpath, hopen, hscan, hmem, hclose]
  · intro file hpath hopen hmem
    unfold checkBadPasswords
    simp [hpath, hopen, (scanFinds_iff password file.lines).2 hmem]
  · intro hpath
    unfold checkBadPasswords
    simp [hpath]

/-- Witness of C9 as amended: a deny-list holding "123456" and "password" rejects
"password", and without a deny-list the same password passes. -/
theorem checkBadPasswords_error_iff_witness :
    checkBadPasswords denyListEnv "password" =
        some (.wrapf "%w: cannot use a common password" .ErrBadRequest) ∧
      checkBadPasswords asciiEnv "password" = none :=
  ⟨(checkBadPasswords_error_iff denyListEnv "password").2.1
      { lines := ["123456", "password"] } (by decide) rfl (by decide),
    (checkBadPasswords_error_iff asciiEnv "password").2.2 rfl⟩

/-- Counterexample to C9 as stated: the deny-list variable names a file that cannot be
opened; `checkBadPasswords` returns the error of `os.Open` although the password is a line
of no file. -/
theorem checkBadPasswords_open_failure :
    missingFileEnv.Getenv "INFRA_SERVER_BAD_PASSWORDS_FILE" ≠ "" ∧
      checkBadPasswords missingFileEnv "correct horse battery staple" =
        some (.external "open /etc/infra/bad-passwords.txt: no such file or directory") ∧
      ¬ ∃ file, missingFileEnv.Open (missingFileEnv.Getenv "INFRA_SERVER_BAD_PASSWORDS_FILE") =
          .ok file ∧ "correct horse battery staple" ∈ file.lines := by
  refine ⟨by decide, by decide, ?_⟩
  rintro ⟨file, hopen, _⟩
  exact absurd hopen (by simp [missingFileEnv])

/-! ## Wording of the requirement strings: lemmas and properties -/

theorem sprintfChars_verb (n : Int) (rest : List Char) :
    sprintfChars n ('%' :: 'd' :: rest) = (toString n).data ++ rest := by
  rfl

theorem Sprintf_eq (n : Int) (noun : String) :
    Sprintf ("%d " ++ noun) n = toString n ++ " " ++ noun := by
  apply String.ext
  simp [Sprintf, String.data_append]
  exact sprintfChars_verb n _

theorem rowMessage_eq_wording (n : Int) (f : Char → Bool) (singular plural : String) :
    rowMessage ⟨n, f, "%d " ++ singular, "%d " ++ plural⟩ = wording n singular plural := by
  unfold rowMessage wording
  by_cases h1 : n = 1
  · subst h1
    simp only [beq_self_eq_true, if_true, Sprintf_eq]
    rfl
  · have h1b : (n == 1) = false := by simpa using h1
    simp only [h1b, Bool.false_eq_true, if_false, h1, Sprintf_eq]

theorem filterMap_requirements (env : Env) (settings : Settings) :
    (requirements env settings).filterMap rowMessage =
      (categoryNouns settings).filterMap (fun c => wording c.1 c.2.1 c.2.2) := by
  have h := fun (n : Int) (f : Char → Bool) (s p : String) => rowMessage_eq_wording n f s p
  simp only [requirements, categoryNouns, List.filterMap_cons, List.filterMap_nil]
  rw [show rowMessage ⟨settings.LengthMin, fun _ => true, "%d character", "%d characters"⟩ =
        wording settings.LengthMin "character" "characters" from h _ _ _ _,
      show rowMessage ⟨settings.LowercaseMin, env.IsLower, "%d lowercase letter",
          "%d lowercase letters"⟩ =
        wording settings.LowercaseMin "lowercase letter" "lowercase letters" from h _ _ _ _,
      show rowMessage ⟨settings.UppercaseMin, env.IsUpper, "%d uppercase letter",
          "%d uppercase letters"⟩ =
        wording settings.UppercaseMin "uppercase letter" "uppercase letters" from h _ _ _ _,
      show rowMessage ⟨settings.NumberMin, env.IsDigit, "%d number", "%d numbers"⟩ =
        wording settings.NumberMin "number" "numbers" from h _ _ _ _,
      show rowMessage ⟨settings.SymbolMin, isSymbol, "%d symbol", "%d symbols"⟩ =
        wording settings.SymbolMin "symbol" "symbols" from h _ _ _ _]

/-- C11: the requirement string `checkPasswordRequirements` reports for a category is
determined by its configured minimum n alone: the singular form (such as "1 uppercase
letter") when n = 1, the plural form (such as "2 uppercase letters") when n > 1, and no
string at all when n is 0. -/
theorem checkPasswordRequirements_wording (env : Env) (db : DB) (settings : Settings)
    (password : String) (err : Err)
    (hs : data.GetSettings env db = .ok settings)
    (hreject : checkPasswordRequirements env db password = some err) :
    err = .validation [("password",
        (categoryNouns settings).filterMap (fun c => wording c.1 c.2.1 c.2.2))] ∧
      wording 1 "uppercase letter" "uppercase letters" = some "1 uppercase letter" ∧
      wording 2 "uppercase letter" "uppercase letters" = some "2 uppercase letters" ∧
      (∀ singular plural, wording 0 singular plural = none) ∧
      (∀ n singular plural, 1 < n → wording n singular plural = some (toString n ++ " " ++ plural)) := by
  refine ⟨?_, by decide, by decide, fun _ _ => rfl, ?_⟩
  · rw [checkPasswordRequirements_eq env db password settings hs] at hreject
    split at hreject
    · simp at hreject
    · rw [configuredRequirements, ← filterMap_rowMessage, filterMap_requirements] at hreject
      simpa using hreject.symm
  · intro n singular plural hn
    have h1 : ¬ n = 1 := by omega
    simp [wording, h1, hn]

/-- Witness of C11: under a minimum length of 8 the rejection of "short" reads
"8 characters". -/
theorem checkPasswordRequirements_wording_witness :
    Err.validation [("password", ["8 characters"])] = .validation [("password",
        (categoryNouns { LengthMin := 8 }).filterMap (fun c => wording c.1 c.2.1 c.2.2))] ∧
      wording 1 "uppercase letter" "uppercase letters" = some "1 uppercase letter" ∧
      wording 2 "uppercase letter" "uppercase letters" = some "2 uppercase letters" ∧
      (∀ singular plural, wording 0 singular plural = none) ∧
      (∀ n singular plural, 1 < n →
        wording n singular plural = some (toString n ++ " " ++ plural)) :=
  checkPasswordRequirements_wording asciiEnv { settings := { LengthMin := 8 } }
    { LengthMin := 8 } "short" (.validation [("password", ["8 characters"])]) rfl (by decide)

theorem countP_congr_ascii (p q : Char → Bool) (l : List Char)
    (hpq : ∀ r : Char, r.toNat < 128 → p r = q r) (hl : ∀ r ∈ l, r.toNat < 128) :
    l.countP p = l.countP q := by
  induction l with
  | nil => rfl
  | cons a t ih =>
    have ha : p a = q a := hpq a (hl a (List.mem_cons_self a t))
    have ht := ih (fun r hr => hl r (List.mem_cons_of_mem a hr))
    simp only [List.countP_cons, ha, ht]

/-- C12: under the policy LengthMin = 8, UppercaseMin = 1, NumberMin = 1, all other minimums
0, `checkPasswordRequirements` rejects "abcdefg1" with an error that has the message
"1 uppercase letter", and accepts "Abcdefg1". The predicates of package `unicode` enter
through their values on ASCII. -/
theorem checkPasswordRequirements_example (env : Env) (db : DB) (settings : Settings)
    (hs : data.GetSettings env db = .ok settings)
    (hpolicy : settings.LengthMin = 8 ∧ settings.LowercaseMin = 0 ∧ settings.UppercaseMin = 1 ∧
      settings.NumberMin = 1 ∧ settings.SymbolMin = 0)
    (hupper : ∀ r : Char, r.toNat < 128 →
      env.IsUpper r = decide (0x41 ≤ r.toNat ∧ r.toNat ≤ 0x5A))
    (hdigit : ∀ r : Char, r.toNat < 128 →
      env.IsDigit r = decide (0x30 ≤ r.toNat ∧ r.toNat ≤ 0x39)) :
    checkPasswordRequirements env db "abcdefg1" =
        some (.validation [("password", ["8 characters", "1 uppercase letter", "1 number"])]) ∧
      "1 uppercase letter" ∈ ["8 characters", "1 uppercase letter", "1 number"] ∧
      checkPasswordRequirements env db "Abcdefg1" = none := by
  obtain ⟨h1, h2, h3, h4, h5⟩ := hpolicy
  have hup : ∀ l : List Char, (∀ r ∈ l, r.toNat < 128) →
      l.countP env.IsUpper = l.countP (fun r => decide (0x41 ≤ r.toNat ∧ r.toNat ≤ 0x5A)) :=
    fun l hl => countP_congr_ascii _ _ l hupper hl
  have hdi : ∀ l : List Char, (∀ r ∈ l, r.toNat < 128) →
      l.countP env.IsDigit = l.countP (fun r => decide (0x30 ≤ r.toNat ∧ r.toNat ≤ 0x39)) :=
    fun l hl => countP_congr_ascii _ _ l hdigit hl
  have hmsgs : (categoryNouns settings).filterMap (fun c => wording c.1 c.2.1 c.2.2) =
      ["8 characters", "1 uppercase letter", "1 number"] := by
    simp only [categoryNouns, h1, h2, h3, h4, h5]
    decide
  refine ⟨?_, by decide, ?_⟩
  · rw [checkPasswordRequirements_eq env db "abcdefg1" settings hs]
    have hnot : ¬ ((requirements env settings).all
        (fun r => hasMinimumCount "abcdefg1" r.minCount r.countFunc) = true) := by
      rw [all_requirements_iff]
      rintro ⟨_, _, hu, _, _⟩
      rw [h3, hup "abcdefg1".data (by decide)] at hu
      revert hu
      decide
    rw [if_neg hnot, configuredRequirements, ← filterMap_rowMessage, filterMap_requirements,
      hmsgs]
  · rw [checkPasswordRequirements_eq env db "Abcdefg1" settings hs]
    have hall : (requirements env settings).all
        (fun r => hasMinimumCount "Abcdefg1" r.minCount r.countFunc) = true := by
      rw [all_requirements_iff, h1, h2, h3, h4, h5, hup "Abcdefg1".data (by decide),
        hdi "Abcdefg1".data (by decide)]
      refine ⟨by decide, ?_, by decide, by decide, ?_⟩
      · exact Int.ofNat_nonneg _
      · exact Int.ofNat_nonneg _
    rw [if_pos hall]

/-- Witness of C12: the ASCII environment and a store holding that policy. -/
theorem checkPasswordRequirements_example_witness :
    checkPasswordRequirements asciiEnv
        { settings := { LengthMin := 8, UppercaseMin := 1, NumberMin := 1 } } "abcdefg1" =
        some (.validation [("password", ["8 characters", "1 uppercase letter", "1 number"])]) ∧
      "1 uppercase letter" ∈ ["8 characters", "1 uppercase letter", "1 number"] ∧
      checkPasswordRequirements asciiEnv
        { settings := { LengthMin := 8, UppercaseMin := 1, NumberMin := 1 } } "Abcdefg1" = none :=
  checkPasswordRequirements_example asciiEnv
    { settings := { LengthMin := 8, UppercaseMin := 1, NumberMin := 1 } }
    { LengthMin := 8, UppercaseMin := 1, NumberMin := 1 } rfl
    ⟨rfl, rfl, rfl, rfl, rfl⟩ (fun _ _ => rfl) (fun _ _ => rfl)

/-! ## Lemmas on the encryption key manager -/

theorem dbKeyRecords_nil_iff (db : DB) :
    dbKeyRecords db = [] ↔ db.encryptionKeys.find? (fun k => k.Name == dbKeyName) = none := by
  unfold dbKeyRecords
  rw [List.find?_eq_none, List.filter_eq_nil_iff]

theorem GetEncryptionKey_ok (env : Env) (db : DB) (name : String) (keyRec : EncryptionKey)
    (h : data.GetEncryptionKey env db name = .ok keyRec) :
    db.encryptionKeys.find? (fun k => k.Name == name) = some keyRec := by
  unfold data.GetEncryptionKey at h
  split at h
  · simp at h
  · split at h
    · rename_i k hk
      have : k = keyRec := by simpa using h
      rw [← this]; exact hk
    · simp at h

theorem GetEncryptionKey_notFound (env : Env) (db : DB) (name : String) (err : Err)
    (h : data.GetEncryptionKey env db name = .error err)
    (hnf : errorsIs err .ErrNotFound = true) :
    db.encryptionKeys.find? (fun k => k.Name == name) = none := by
  unfold data.GetEncryptionKey at h
  split at h
  · rename_i msg _
    have he : err = .external msg := by simpa using h.symm
    rw [he] at hnf
    exact absurd hnf (by simp [errorsIs])
  · split at h
    · simp at h
    · rename_i hnone
      exact hnone

theorem GetEncryptionKey_of_found (env : Env) (db : DB) (name : String)
    (keyRec : EncryptionKey)
    (hfound : db.encryptionKeys.find? (fun k => k.Name == name) = some keyRec) :
    data.GetEncryptionKey env db name = .ok keyRec ∨
      ∃ msg, data.GetEncryptionKey env db name = .error (.external msg) := by
  unfold data.GetEncryptionKey
  cases env.keyFault .GetEncryptionKey with
  | some msg => exact Or.inr ⟨msg, rfl⟩
  | none => left; simp [hfound]

theorem CreateEncryptionKey_ok (env : Env) (db db1 : DB) (key key1 : EncryptionKey)
    (h : data.CreateEncryptionKey env db key = .ok (key1, db1)) :
    db1 = { db with encryptionKeys := db.encryptionKeys ++ [key] } := by
  unfold data.CreateEncryptionKey at h
  split at h
  · simp at h
  · simp only [Except.ok.injEq, Prod.mk.injEq] at h
    exact h.2.symm

/-- What `createDBKey` does when it succeeds. -/
theorem createDBKey_ok (env : Env) (p p1 : Process) (provider : SymmetricKeyProvider)
    (rootKeyId : String) (h : createDBKey env p provider rootKeyId = (none, p1)) :
    ∃ sKey, provider.GenerateDataKey rootKeyId = .ok sKey ∧
      p1.providerCalls = p.providerCalls ++ [.GenerateDataKey rootKeyId] ∧
      p1.server.db.encryptionKeys = p.server.db.encryptionKeys ++
        [{ Name := "dbkey", Encrypted := sKey.Encrypted, Algorithm := sKey.Algorithm,
           RootKeyID := sKey.RootKeyID }] ∧
      p1.SymmetricKey = some sKey := by
  unfold createDBKey at h
  simp only at h
  split at h
  · simp at h
  · rename_i sKey hgen
    split at h
    · simp at h
    · rename_i key1 db1 hcreate
      have hdb := CreateEncryptionKey_ok env _ _ _ _ hcreate
      have hp : p1 = _ := (Prod.mk.inj h).2.symm
      subst hp
      subst hdb
      exact ⟨sKey, hgen, rfl, rfl, rfl⟩

/-- A failing `createDBKey` changes neither the store nor the key in memory. -/
theorem createDBKey_error (env : Env) (p p1 : Process) (provider : SymmetricKeyProvider)
    (rootKeyId : String) (err : Err) (h : createDBKey env p provider rootKeyId = (some err, p1)) :
    p1.server.db = p.server.db ∧ p1.SymmetricKey = p.SymmetricKey := by
  unfold createDBKey at h
  simp only at h
  split at h
  · have hp : p1 = _ := (Prod.mk.inj h).2.symm
    subst hp
    exact ⟨rfl, rfl⟩
  · split at h
    · have hp : p1 = _ := (Prod.mk.inj h).2.symm
      subst hp
      exact ⟨rfl, rfl⟩
    · simp at h

/-- When `loadDBKey` returns an error, the store and the key in memory are as before. -/
theorem loadDBKey_error (env : Env) (p p1 : Process) (err : Err)
    (h : loadDBKey env p = (some err, p1)) :
    p1.server.db = p.server.db ∧ p1.SymmetricKey = p.SymmetricKey := by
  unfold loadDBKey at h
  split at h
  · have hp : p1 = p := (Prod.mk.inj h).2.symm
    subst hp
    exact ⟨rfl, rfl⟩
  · split at h
    · split at h
      · exact createDBKey_error env _ _ _ _ _ h
      · have hp : p1 = p := (Prod.mk.inj h).2.symm
        subst hp
        exact ⟨rfl, rfl⟩
    · simp only at h
      split at h
      · have hp : p1 = _ := (Prod.mk.inj h).2.symm
        subst hp
        exact ⟨rfl, rfl⟩
      · simp at h

/-- With a "dbkey" record in the store, `loadDBKey` makes at most a `DecryptDataKey` call and
leaves the store as it is. -/
theorem loadDBKey_found (env : Env) (p : Process) (keyRec : EncryptionKey)
    (hfound : p.server.db.encryptionKeys.find? (fun k => k.Name == dbKeyName) = some keyRec) :
    ((loadDBKey env p).2.providerCalls = p.providerCalls ∨
        (loadDBKey env p).2.providerCalls = p.providerCalls ++
          [.DecryptDataKey p.server.options.DBEncryptionKey keyRec.Encrypted]) ∧
      (loadDBKey env p).2.server.db = p.server.db ∧
      ((loadDBKey env p).1 = none →
        ∃ provider sKey,
          p.server.keys.lookup p.server.options.DBEncryptionKeyProvider = some provider ∧
          provider.DecryptDataKey p.server.options.DBEncryptionKey keyRec.Encrypted = .ok sKey ∧
          (loadDBKey env p).2.SymmetricKey = some sKey) := by
  unfold loadDBKey
  cases hlook : p.server.keys.lookup p.server.options.DBEncryptionKeyProvider with
  | none => simp
  | some provider =>
    rcases GetEncryptionKey_of_found env p.server.db dbKeyName keyRec hfound with hget | ⟨msg, hget⟩
    · simp only [hget]
      cases hdec : provider.DecryptDataKey p.server.options.DBEncryptionKey keyRec.Encrypted with
      | error e => simp
      | ok sKey => simp [hdec]
    · simp [hget, errorsIs]

/-- With no "dbkey" record in the store, a successful `loadDBKey` went through
`createDBKey`. -/
theorem loadDBKey_absent_ok (env : Env) (p p1 : Process)
    (habsent : dbKeyRecords p.server.db = [])
    (hok : loadDBKey env p = (none, p1)) :
    ∃ provider, p.server.keys.lookup p.server.options.DBEncryptionKeyProvider = some provider ∧
      createDBKey env p provider p.server.options.DBEncryptionKey = (none, p1) := by
  rw [dbKeyRecords_nil_iff] at habsent
  unfold loadDBKey at hok
  split at hok
  · simp at hok
  · rename_i provider hlook
    refine ⟨provider, hlook, ?_⟩
    split at hok
    · split at hok
      · exact hok
      · simp at hok
    · rename_i keyRec hget
      have := GetEncryptionKey_ok env _ _ _ hget
      rw [habsent] at this
      exact absurd this (by simp)

/-- With no "dbkey" record, `loadDBKey` fails when the provider cannot generate a data key
or the record cannot be persisted. -/
theorem loadDBKey_absent_error (env : Env) (p : Process) (provider : SymmetricKeyProvider)
    (hlook : p.server.keys.lookup p.server.options.DBEncryptionKeyProvider = some provider)
    (habsent : dbKeyRecords p.server.db = [])
    (hcause : (∃ e, provider.GenerateDataKey p.server.options.DBEncryptionKey = .error e) ∨
      ∃ msg, env.keyFault .CreateEncryptionKey = some msg) :
    ∃ err, (loadDBKey env p).1 = some err := by
  have hcreate : ∃ err, (createDBKey env p provider p.server.options.DBEncryptionKey).1 =
      some err := by
    unfold createDBKey
    cases hgen : provider.GenerateDataKey p.server.options.DBEncryptionKey with
    | error e => exact ⟨e, rfl⟩
    | ok sKey =>
      rcases hcause with ⟨e, he⟩ | ⟨msg, hmsg⟩
      · rw [hgen] at he; exact absurd he (by simp)
      · exact ⟨.external msg, by simp [data.CreateEncryptionKey, hmsg]⟩
  unfold loadDBKey
  simp only [hlook]
  split
  · split
    · exact hcreate
    · exact ⟨_, rfl⟩
  · rename_i keyRec hget
    have := GetEncryptionKey_ok env _ _ _ hget
    rw [(dbKeyRecords_nil_iff _).1 habsent] at this
    exact absurd this (by simp)


/-! ## Properties of the encryption key manager -/

/-- C13: when no record named "dbkey" exists, a successful `loadDBKey` calls the configured
provider's `GenerateDataKey` with the configured root-key id, persists one record named
"dbkey" carrying exactly the returned ciphertext, algorithm and root-key id, and sets the
in-memory symmetric key to the returned key. -/
theorem loadDBKey_creates (env : Env) (p p1 : Process)
    (habsent : dbKeyRecords p.server.db = [])
    (hok : loadDBKey env p = (none, p1)) :
    ∃ provider sKey,
      p.server.keys.lookup p.server.options.DBEncryptionKeyProvider = some provider ∧
      provider.GenerateDataKey p.server.options.DBEncryptionKey = .ok sKey ∧
      p1.providerCalls =
        p.providerCalls ++ [.GenerateDataKey p.server.options.DBEncryptionKey] ∧
      p1.server.db.encryptionKeys = p.server.db.encryptionKeys ++
        [{ Name := "dbkey", Encrypted := sKey.Encrypted, Algorithm := sKey.Algorithm,
           RootKeyID := sKey.RootKeyID }] ∧
      p1.SymmetricKey = some sKey := by
  obtain ⟨provider, hlook, hcreate⟩ := loadDBKey_absent_ok env p p1 habsent hok
  obtain ⟨sKey, hgen, hcalls, hdb, hkey⟩ := createDBKey_ok env p p1 provider _ hcreate
  exact ⟨provider, sKey, hlook, hgen, hcalls, hdb, hkey⟩

/-- Witness of C13: the first boot on an empty store. -/
theorem loadDBKey_creates_witness :
    ∃ provider sKey,
      firstBoot.server.keys.lookup firstBoot.server.options.DBEncryptionKeyProvider =
        some provider ∧
      provider.GenerateDataKey firstBoot.server.options.DBEncryptionKey = .ok sKey ∧
      (loadDBKey asciiEnv firstBoot).2.providerCalls =
        firstBoot.providerCalls ++ [.GenerateDataKey firstBoot.server.options.DBEncryptionKey] ∧
      (loadDBKey asciiEnv firstBoot).2.server.db.encryptionKeys =
        firstBoot.server.db.encryptionKeys ++
          [{ Name := "dbkey", Encrypted := sKey.Encrypted, Algorithm := sKey.Algorithm,
             RootKeyID := sKey.RootKeyID }] ∧
      (loadDBKey asciiEnv firstBoot).2.SymmetricKey = some sKey :=
  loadDBKey_creates asciiEnv firstBoot (loadDBKey asciiEnv firstBoot).2 (by decide) rfl

/-- C14: when a record named "dbkey" exists, `loadDBKey` never generates a new data key (the
only call it may add is a `DecryptDataKey` on the stored ciphertext) and never writes an
encryption-key record; on success the in-memory symmetric key is exactly the result of the
provider's `DecryptDataKey` applied to the stored ciphertext of the record. -/
theorem loadDBKey_reuses (env : Env) (p : Process) (keyRec : EncryptionKey)
    (hfound : p.server.db.encryptionKeys.find? (fun k => k.Name == dbKeyName) = some keyRec) :
    (∀ rootKeyID, ProviderCall.GenerateDataKey rootKeyID ∈ (loadDBKey env p).2.providerCalls →
        ProviderCall.GenerateDataKey rootKeyID ∈ p.providerCalls) ∧
      (loadDBKey env p).2.server.db = p.server.db ∧
      ((loadDBKey env p).1 = none →
        ∃ provider sKey,
          p.server.keys.lookup p.server.options.DBEncryptionKeyProvider = some provider ∧
          provider.DecryptDataKey p.server.options.DBEncryptionKey keyRec.Encrypted = .ok sKey ∧
          (loadDBKey env p).2.SymmetricKey = some sKey) := by
  obtain ⟨hcalls, hdb, hkey⟩ := loadDBKey_found env p keyRec hfound
  refine ⟨?_, hdb, hkey⟩
  intro rootKeyID hmem
  rcases hcalls with h | h
  · rw [h] at hmem; exact hmem
  · rw [h] at hmem
    simpa using hmem

/-- Witness of C14: a later boot finds the record and unwraps its ciphertext. -/
theorem loadDBKey_reuses_witness :
    (∀ rootKeyID,
        ProviderCall.GenerateDataKey rootKeyID ∈ (loadDBKey asciiEnv laterBoot).2.providerCalls →
        ProviderCall.GenerateDataKey rootKeyID ∈ laterBoot.providerCalls) ∧
      (loadDBKey asciiEnv laterBoot).2.server.db = laterBoot.server.db ∧
      ((loadDBKey asciiEnv laterBoot).1 = none →
        ∃ provider sKey,
          laterBoot.server.keys.lookup laterBoot.server.options.DBEncryptionKeyProvider =
            some provider ∧
          provider.DecryptDataKey laterBoot.server.options.DBEncryptionKey [42, 43] = .ok sKey ∧
          (loadDBKey asciiEnv laterBoot).2.SymmetricKey = some sKey) :=
  loadDBKey_reuses asciiEnv laterBoot
    { Name := "dbkey", Encrypted := [42, 43], Algorithm := "aesgcm", RootKeyID := "root" } rfl

/-- C15: if the configured key provider is missing, or `DecryptDataKey` fails on the stored
record, or (no record stored) `GenerateDataKey` fails or persisting the new record fails,
`loadDBKey` returns an error and leaves the in-memory symmetric key unchanged; a `Run` whose
earlier steps reached this server value then returns the error, wrapped, and does not call
`runServer`. -/
theorem loadDBKey_failure_aborts (env : Env) (p : Process)
    (hfail : p.server.keys.lookup p.server.options.DBEncryptionKeyProvider = none ∨
      ∃ provider,
        p.server.keys.lookup p.server.options.DBEncryptionKeyProvider = some provider ∧
        ((∃ keyRec e,
            p.server.db.encryptionKeys.find? (fun k => k.Name == dbKeyName) = some keyRec ∧
            provider.DecryptDataKey p.server.options.DBEncryptionKey keyRec.Encrypted =
              .error e) ∨
          (dbKeyRecords p.server.db = [] ∧
            ((∃ e, provider.GenerateDataKey p.server.options.DBEncryptionKey = .error e) ∨
              ∃ msg, env.keyFault .CreateEncryptionKey = some msg)))) :
    (∃ err, (loadDBKey env p).1 = some err) ∧
      (loadDBKey env p).2.SymmetricKey = p.SymmetricKey ∧
      (∀ steps options, p.providerCalls = [] → runUntilLoadDBKey steps options = .ok p.server →
        ∃ err, (Run env steps options p.SymmetricKey).err =
            some (.wrapf "loading database key: %w" err) ∧
          (Run env steps options p.SymmetricKey).ranServer = false ∧
          (Run env steps options p.SymmetricKey).process.SymmetricKey = p.SymmetricKey) := by
  have herr : ∃ err, (loadDBKey env p).1 = some err := by
    rcases hfail with hnone | ⟨provider, hlook, hdec | ⟨habsent, hcause⟩⟩
    · unfold loadDBKey
      simp only [hnone]
      exact ⟨_, rfl⟩
    · obtain ⟨keyRec, e, hfound, hdecrypt⟩ := hdec
      obtain ⟨_, _, hkey⟩ := loadDBKey_found env p keyRec hfound
      cases hres : (loadDBKey env p).1 with
      | some err => exact ⟨err, rfl⟩
      | none =>
        obtain ⟨provider1, sKey, hlook1, hdec1, _⟩ := hkey hres
        rw [hlook] at hlook1
        cases hlook1
        rw [hdecrypt] at hdec1
        exact absurd hdec1 (by simp)
    · exact loadDBKey_absent_error env p provider hlook habsent hcause
  obtain ⟨err, herr⟩ := herr
  have hpair : loadDBKey env p = (some err, (loadDBKey env p).2) := by
    rw [← herr]
  have hsame := (loadDBKey_error env p _ err hpair).2
  refine ⟨⟨err, herr⟩, hsame, ?_⟩
  intro steps options hcalls hreach
  have hp : ({ server := p.server, SymmetricKey := p.SymmetricKey } : Process) = p := by
    cases p
    simp only at hcalls
    subst hcalls
    rfl
  refine ⟨err, ?_⟩
  unfold Run
  simp only [hreach, hp]
  rw [hpair]
  exact ⟨rfl, rfl, hsame⟩

/-- Witness of C15: the configuration names the provider "vault", which is not configured. -/
theorem loadDBKey_failure_aborts_witness :
    (∃ err, (loadDBKey asciiEnv misconfiguredBoot).1 = some err) ∧
      (loadDBKey asciiEnv misconfiguredBoot).2.SymmetricKey = misconfiguredBoot.SymmetricKey ∧
      ∃ err, (Run asciiEnv testSteps misconfiguredBoot.server.options none).err =
          some (.wrapf "loading database key: %w" err) ∧
        (Run asciiEnv testSteps misconfiguredBoot.server.options none).ranServer = false ∧
        (Run asciiEnv testSteps misconfiguredBoot.server.options none).process.SymmetricKey =
          none :=
  have h := loadDBKey_failure_aborts asciiEnv misconfiguredBoot (Or.inl rfl)
  ⟨h.1, h.2.1, h.2.2 testSteps misconfiguredBoot.server.options rfl rfl⟩

theorem loadDBKeyCalls_cons (env : Env) (server : Server) (boots : List (Env × Server))
    (db : DB) :
    loadDBKeyCalls ((env, server) :: boots) db =
      ((loadDBKeyCalls boots
          (loadDBKey env { server := { server with db := db } }).2.server.db).1,
        (loadDBKey env { server := { server with db := db } }).1.isNone ::
          (loadDBKeyCalls boots
            (loadDBKey env { server := { server with db := db } }).2.server.db).2) := by
  rfl

/-- Once the store holds a "dbkey" record, further calls of `loadDBKey` leave it as it is. -/
theorem loadDBKeyCalls_found (boots : List (Env × Server)) (db : DB) (keyRec : EncryptionKey)
    (hfound : db.encryptionKeys.find? (fun k => k.Name == dbKeyName) = some keyRec) :
    (loadDBKeyCalls boots db).1 = db := by
  induction boots with
  | nil => rfl
  | cons boot rest ih =>
    obtain ⟨env, server⟩ := boot
    rw [loadDBKeyCalls_cons]
    have h := (loadDBKey_found env { server := { server with db := db } } keyRec hfound).2.1
    simp only at h
    simp only [h]
    exact ih

/-- C16: starting from a store with no record named "dbkey", after any number of `loadDBKey`
calls of which at least one succeeded the store holds exactly one record named "dbkey": the
calls before the first successful one leave the store as it was, the first successful call
creates the record, and every later call leaves the store as that call left it. -/
theorem loadDBKeyCalls_one_record (boots : List (Env × Server)) (db : DB)
    (habsent : dbKeyRecords db = [])
    (hsome : true ∈ (loadDBKeyCalls boots db).2) :
    (dbKeyRecords (loadDBKeyCalls boots db).1).length = 1 ∧
      ∃ before env server later, boots = before ++ (env, server) :: later ∧
        loadDBKeyCalls before db = (db, List.replicate before.length false) ∧
        (loadDBKey env { server := { server with db := db } }).1 = none ∧
        (loadDBKeyCalls boots db).1 =
          (loadDBKey env { server := { server with db := db } }).2.server.db := by
  induction boots with
  | nil => simp [loadDBKeyCalls] at hsome
  | cons boot rest ih =>
    obtain ⟨env, server⟩ := boot
    rw [loadDBKeyCalls_cons] at hsome ⊢
    cases hres : (loadDBKey env { server := { server with db := db } }).1 with
    | none =>
      have hpair : loadDBKey env { server := { server with db := db } } =
          (none, (loadDBKey env { server := { server with db := db } }).2) := by
        rw [← hres]
      obtain ⟨provider, _, hcreate⟩ := loadDBKey_absent_ok env _ _ habsent hpair
      obtain ⟨sKey, _, _, hdb, _⟩ := createDBKey_ok env _ _ provider _ hcreate
      simp only at hdb
      have hrec : dbKeyRecords (loadDBKey env { server := { server with db := db } }).2.server.db =
          [{ Name := "dbkey", Encrypted := sKey.Encrypted, Algorithm := sKey.Algorithm,
             RootKeyID := sKey.RootKeyID }] := by
        unfold dbKeyRecords at habsent ⊢
        rw [hdb, List.filter_append, habsent]
        rfl
      have hfound : (loadDBKey env { server := { server with db := db } }).2.server.db.encryptionKeys.find?
          (fun k => k.Name == dbKeyName) =
          some { Name := "dbkey", Encrypted := sKey.Encrypted, Algorithm := sKey.Algorithm,
                 RootKeyID := sKey.RootKeyID } := by
        rw [hdb, List.find?_append, (dbKeyRecords_nil_iff db).1 habsent]
        rfl
      have hfinal := loadDBKeyCalls_found rest _ _ hfound
      simp only [hfinal]
      refine ⟨by rw [hrec]; rfl, [], env, server, rest, rfl, rfl, hres, rfl⟩
    | some err =>
      have hpair : loadDBKey env { server := { server with db := db } } =
          (some err, (loadDBKey env { server := { server with db := db } }).2) := by
        rw [← hres]
      have hdb := (loadDBKey_error env _ _ err hpair).1
      simp only at hdb
      rw [hres, hdb] at hsome
      simp only [Option.isNone_some, List.mem_cons, Bool.true_eq_false, false_or] at hsome
      obtain ⟨hlen, before, env1, server1, later, hsplit, hbefore, hfirst, hfinal⟩ := ih hsome
      simp only [hdb]
      refine ⟨hlen, (env, server) :: before, env1, server1, later, ?_, ?_, hfirst, hfinal⟩
      · rw [hsplit]; rfl
      · rw [loadDBKeyCalls_cons, hres, hdb, hbefore]
        rfl

/-- Witness of C16: a boot with a misconfigured provider, then two boots with the right
configuration, on a store that starts empty. -/
theorem loadDBKeyCalls_one_record_witness :
    (dbKeyRecords (loadDBKeyCalls
        [(asciiEnv, misconfiguredBoot.server), (asciiEnv, testServer), (asciiEnv, testServer)]
        {}).1).length = 1 ∧
      ∃ before env server later,
        [(asciiEnv, misconfiguredBoot.server), (asciiEnv, testServer), (asciiEnv, testServer)] =
          before ++ (env, server) :: later ∧
        loadDBKeyCalls before {} = ({}, List.replicate before.length false) ∧
        (loadDBKey env { server := { server with db := {} } }).1 = none ∧
        (loadDBKeyCalls
          [(asciiEnv, misconfiguredBoot.server), (asciiEnv, testServer), (asciiEnv, testServer)]
          {}).1 = (loadDBKey env { server := { server with db := {} } }).2.server.db :=
  loadDBKeyCalls_one_record
    [(asciiEnv, misconfiguredBoot.server), (asciiEnv, testServer), (asciiEnv, testServer)] {}
    (by decide) (by decide)

/-! ## Properties of the API error translation -/

theorem errorsIs_eq_rootCause (err target : Err) (htarget : ∀ f inner, target ≠ .wrapf f inner) :
    errorsIs err target = decide (rootCause err = target) := by
  induction err with
  | wrapf f inner ih =>
    have hne : ¬ Err.wrapf f inner = target := fun h => htarget f inner h.symm
    simp [errorsIs, rootCause, ih, hne]
  | _ => rfl

theorem forbidden_not_unauthorized (err : Err) (h : errorsIs err .ErrForbidden = true) :
    errorsIs err .ErrUnauthorized = false := by
  rw [errorsIs_eq_rootCause err _ (by intro f inner; simp)] at h ⊢
  simp only [decide_eq_true_eq] at h
  simp [h]

/-- C17: for every error that is Unauthorized, Forbidden, or belongs to no recognised class,
the response of `sendAPIError` is the fixed message "unauthorized", "forbidden" or "internal
server error" with status 401, 403 or 500: it does not depend on the error or its text, so two
errors of the same class produce identical responses. -/
theorem sendAPIError_generic (errorText : Err → String) (err : Err) :
    (errorsIs err .ErrUnauthorized = true →
        sendAPIError errorText err = ⟨401, 401, "unauthorized", true⟩) ∧
      (errorsIs err .ErrForbidden = true →
        sendAPIError errorText err = ⟨403, 403, "forbidden", true⟩) ∧
      (unrecognised err →
        sendAPIError errorText err = ⟨500, 500, "internal server error", true⟩) ∧
      (∀ (errorText2 : Err → String) (err2 : Err),
        (errorsIs err .ErrUnauthorized = true ∧ errorsIs err2 .ErrUnauthorized = true) ∨
          (errorsIs err .ErrForbidden = true ∧ errorsIs err2 .ErrForbidden = true) ∨
          (unrecognised err ∧ unrecognised err2) →
        sendAPIError errorText err = sendAPIError errorText2 err2) := by
  have hu : ∀ (t : Err → String) (e : Err), errorsIs e .ErrUnauthorized = true →
      sendAPIError t e = ⟨401, 401, "unauthorized", true⟩ := by
    intro t e h
    simp only [sendAPIError, h, if_true]
    rfl
  have hf : ∀ (t : Err → String) (e : Err), errorsIs e .ErrForbidden = true →
      sendAPIError t e = ⟨403, 403, "forbidden", true⟩ := by
    intro t e h
    simp only [sendAPIError, forbidden_not_unauthorized e h, h, if_true, Bool.false_eq_true,
      if_false]
    rfl
  have hn : ∀ (t : Err → String) (e : Err), unrecognised e →
      sendAPIError t e = ⟨500, 500, "internal server error", true⟩ := by
    intro t e h
    obtain ⟨h1, h2, h3, h4, h5, h6⟩ := h
    simp only [sendAPIError, h1, h2, h3, h4, h5, h6, Bool.false_eq_true, if_false]
    rfl
  refine ⟨hu errorText err, hf errorText err, hn errorText err, ?_⟩
  intro errorText2 err2 hclass
  rcases hclass with ⟨h1, h2⟩ | ⟨h1, h2⟩ | ⟨h1, h2⟩
  · rw [hu _ _ h1, hu _ _ h2]
  · rw [hf _ _ h1, hf _ _ h2]
  · rw [hn _ _ h1, hn _ _ h2]

/-- Witness of C17: a Forbidden error that names the required role and the grants of the
caller gets the same response as the bare sentinel. -/
theorem sendAPIError_generic_witness :
    sendAPIError (fun _ => "forbidden: requires role admin, caller has grants [view]")
        (.wrapf "%w: requires role admin, caller has grants [view]" .ErrForbidden) =
      ⟨403, 403, "forbidden", true⟩ ∧
    sendAPIError (fun _ => "forbidden: requires role admin, caller has grants [view]")
        (.wrapf "%w: requires role admin, caller has grants [view]" .ErrForbidden) =
      sendAPIError (fun _ => "forbidden") .ErrForbidden :=
  have h := sendAPIError_generic
    (fun _ => "forbidden: requires role admin, caller has grants [view]")
    (.wrapf "%w: requires role admin, caller has grants [view]" .ErrForbidden)
  ⟨h.2.1 (by decide), h.2.2.2 (fun _ => "forbidden") .ErrForbidden
    (Or.inr (Or.inl ⟨by decide, by decide⟩))⟩

/-! ## Properties of the initial setup -/

/-- C18: `Setup` returns a Forbidden error, and leaves the request context unchanged (no
machine identity, no access key, no settings change), whenever the setup-required flag in
Settings is false. -/
theorem Setup_forbidden_when_done (env : Env) (rCtx : RequestContext)
    (hdone : rCtx.DBTxn.settings.SetupRequired = false) :
    Setup env rCtx = (.error .ErrForbidden, rCtx) := by
  unfold Setup requireAuthorization data.GetSettings
  cases env.fault .GetSettings with
  | some err => rfl
  | none => simp [hdone]

/-- Witness of C18: a registry whose setup has been done. -/
theorem Setup_forbidden_when_done_witness :
    Setup asciiEnv setupDoneRequest = (.error .ErrForbidden, setupDoneRequest) :=
  Setup_forbidden_when_done asciiEnv setupDoneRequest rfl

/-! ## Properties of the secret references -/

theorem cutChars_of_mem (sep : Char) (l : List Char) (hmem : sep ∈ l) :
    ∃ before after, cutChars sep l = some (before, after) ∧ sep ∉ before ∧
      l = before ++ sep :: after := by
  induction l with
  | nil => simp at hmem
  | cons c rest ih =>
    unfold cutChars
    by_cases hc : c = sep
    · subst hc
      exact ⟨[], rest, by simp, by simp, rfl⟩
    · have hrest : sep ∈ rest := by
        rcases List.mem_cons.1 hmem with h | h
        · exact absurd h.symm hc
        · exact h
      obtain ⟨before, after, hcut, hnot, heq⟩ := ih hrest
      refine ⟨c :: before, after, by simp [hc, hcut], ?_, by rw [heq]; rfl⟩
      intro h
      rcases List.mem_cons.1 h with h | h
      · exact hc h.symm
      · exact hnot h

/-- C19: for every string s, `secretKindAndName` returns no error; if s contains no ':' the
result is kind "plaintext" and name s; otherwise kind is the text before the first ':' (so it
contains no ':'), name is everything after it, and kind + ":" + name = s. -/
theorem secretKindAndName_total (secret : String) :
    ∃ kind name, secretKindAndName secret = .ok (kind, name) ∧
      (':' ∉ secret.data → kind = "plaintext" ∧ name = secret) ∧
      (':' ∈ secret.data → ':' ∉ kind.data ∧ kind ++ ":" ++ name = secret) := by
  by_cases hmem : ':' ∈ secret.data
  · obtain ⟨before, after, hcut, hnot, heq⟩ := cutChars_of_mem ':' secret.data hmem
    refine ⟨⟨before⟩, ⟨after⟩, ?_, fun h => absurd hmem h, fun _ => ⟨hnot, ?_⟩⟩
    · simp [secretKindAndName, stringsContains, stringsSplitN2, hmem, hcut]
    · apply String.ext
      simp [String.data_append, heq]
  · refine ⟨"plaintext", secret, ?_, fun _ => ⟨rfl, rfl⟩, fun h => absurd h hmem⟩
    simp [secretKindAndName, stringsContains, hmem]

/-- Witness of C19: a reference with two colons is cut at the first. -/
theorem secretKindAndName_total_witness :
    secretKindAndName "kubernetes:infra-okta/clientSecret:v1" =
        .ok ("kubernetes", "infra-okta/clientSecret:v1") ∧
      secretKindAndName "pass123" = .ok ("plaintext", "pass123") ∧
      ∃ kind name, secretKindAndName "env:ACCESS_TOKEN" = .ok (kind, name) ∧
        (':' ∉ "env:ACCESS_TOKEN".data → kind = "plaintext" ∧ name = "env:ACCESS_TOKEN") ∧
        (':' ∈ "env:ACCESS_TOKEN".data →
          ':' ∉ kind.data ∧ kind ++ ":" ++ name = "env:ACCESS_TOKEN") :=
  ⟨rfl, rfl, secretKindAndName_total "env:ACCESS_TOKEN"⟩

/-! ## Properties of the connector token verifier -/

/-- C20: `getClaims` reports "token is expired" only for a token whose signature verifies
against the supplied key: a token whose signature does not verify fails with the
cryptographic error whatever its exp claim, and a token whose signature verifies but whose
expiry is in the past fails with "token is expired". -/
theorem getClaims_expiry_after_signature (jose : Jose) (req : Request) (jwk : JSONWebKey) :
    (getClaims jose req jwk = .error .ErrExpired →
        ∃ tok, jose.ParseSigned (bearerToken (headerGet req "Authorization")) = .ok tok ∧
          jose.VerifySignature jwk tok = none ∧ jose.Now > tok.Expiry) ∧
      (∀ tok msg, bearerToken (headerGet req "Authorization") ≠ "" →
        jose.ParseSigned (bearerToken (headerGet req "Authorization")) = .ok tok →
        jose.VerifySignature jwk tok = some msg →
        getClaims jose req jwk = .error (.external msg) ∧
          getClaims jose req jwk ≠ .error .ErrExpired) ∧
      (∀ tok, bearerToken (headerGet req "Authorization") ≠ "" →
        jose.ParseSigned (bearerToken (headerGet req "Authorization")) = .ok tok →
        jose.VerifySignature jwk tok = none → jose.Now > tok.Expiry →
        getClaims jose req jwk = .error .ErrExpired) := by
  refine ⟨?_, ?_, ?_⟩
  · intro h
    unfold getClaims at h
    simp only at h
    split at h
    · simp at h
    · split at h
      · simp at h
      · rename_i tok hparse
        refine ⟨tok, hparse, ?_⟩
        split at h
        · simp at h
        · rename_i hverify
          refine ⟨hverify, ?_⟩
          split at h
          · assumption
          · simp at h
  · intro tok msg hraw hparse hverify
    have hres : getClaims jose req jwk = .error (.external msg) := by
      unfold getClaims
      simp [hraw, hparse, hverify]
    exact ⟨hres, by rw [hres]; simp⟩
  · intro tok hraw hparse hverify hexp
    unfold getClaims
    simp [hraw, hparse, hverify, hexp]

/-- Witness of C20: at second 3700 both tokens are past their expiry; the one signed by the
supplied key is reported expired, the forged one fails on its signature. -/
theorem getClaims_expiry_after_signature_witness :
    getClaims testJose { Header := [("Authorization", "Bearer good")] } { KeyID := "k1" } =
        .error .ErrExpired ∧
      (getClaims testJose { Header := [("Authorization", "Bearer forged")] } { KeyID := "k1" } =
          .error (.external "square/go-jose: error in cryptographic primitive") ∧
        getClaims testJose { Header := [("Authorization", "Bearer forged")] } { KeyID := "k1" } ≠
          .error .ErrExpired) :=
  ⟨(getClaims_expiry_after_signature testJose { Header := [("Authorization", "Bearer good")] }
      { KeyID := "k1" }).2.2
      { Name := "test@example.com", Groups := ["developers"], Expiry := 100, signature := [1] }
      (by decide) rfl rfl (by decide),
    (getClaims_expiry_after_signature testJose
      { Header := [("Authorization", "Bearer forged")] } { KeyID := "k1" }).2.1
      { Name := "test@example.com", Groups := ["developers"], Expiry := 100, signature := [2] }
      "square/go-jose: error in cryptographic primitive" (by decide) rfl rfl⟩

/-! ## Properties of the symbol class -/

/-- C30: `isSymbol(r)` holds exactly for the printable ASCII characters U+0020 to U+007E that
are neither ASCII letters nor ASCII digits, the space character included. -/
theorem isSymbol_iff (r : Char) :
    (isSymbol r = true ↔ printableNonAlphanumeric r) ∧ isSymbol ' ' = true := by
  refine ⟨?_, by decide⟩
  unfold isSymbol printableNonAlphanumeric
  simp only [Bool.or_eq_true, Bool.and_eq_true, decide_eq_true_eq, ge_iff_le]
  omega

/-! ## Root key used to unwrap the data key -/

/-- C25, as the code has it: when a "dbkey" record is present, the only `DecryptDataKey`
call `loadDBKey` adds carries the root-key identifier of the configuration
(`options.DBEncryptionKey`) and the stored ciphertext of the record, and a successful call
adds exactly that call; the `RootKeyID` field of the record is not used. -/
theorem loadDBKey_unwraps_with_configured_root (env : Env) (p : Process)
    (keyRec : EncryptionKey)
    (hfound : p.server.db.encryptionKeys.find? (fun k => k.Name == dbKeyName) = some keyRec) :
    (∀ rootKeyID keyData,
        ProviderCall.DecryptDataKey rootKeyID keyData ∈ (loadDBKey env p).2.providerCalls →
        ProviderCall.DecryptDataKey rootKeyID keyData ∈ p.providerCalls ∨
          (rootKeyID = p.server.options.DBEncryptionKey ∧ keyData = keyRec.Encrypted)) ∧
      ((loadDBKey env p).1 = none →
        (loadDBKey env p).2.providerCalls = p.providerCalls ++
          [.DecryptDataKey p.server.options.DBEncryptionKey keyRec.Encrypted]) := by
  constructor
  · intro rootKeyID keyData hmem
    rcases (loadDBKey_found env p keyRec hfound).1 with h | h
    · rw [h] at hmem; exact Or.inl hmem
    · rw [h] at hmem
      rcases List.mem_append.1 hmem with hm | hm
      · exact Or.inl hm
      · right
        simpa using hm
  · intro hok
    unfold loadDBKey at hok ⊢
    cases hlook : p.server.keys.lookup p.server.options.DBEncryptionKeyProvider with
    | none => simp [hlook] at hok
    | some provider =>
      rcases GetEncryptionKey_of_found env p.server.db dbKeyName keyRec hfound with
        hget | ⟨msg, hget⟩
      · simp only [hlook, hget] at hok ⊢
        cases hdec : provider.DecryptDataKey p.server.options.DBEncryptionKey
            keyRec.Encrypted with
        | error e => simp [hdec] at hok
        | ok sKey => rfl
      · simp [hlook, hget, errorsIs] at hok

/-- Witness of C25 as amended: the later boot of the concrete server. -/
theorem loadDBKey_unwraps_with_configured_root_witness :
    (loadDBKey asciiEnv laterBoot).2.providerCalls =
      laterBoot.providerCalls ++ [.DecryptDataKey "root" [42, 43]] :=
  (loadDBKey_unwraps_with_configured_root asciiEnv laterBoot
    { Name := "dbkey", Encrypted := [42, 43], Algorithm := "aesgcm", RootKeyID := "root" }
    rfl).2 rfl

/-- Counterexample to C25 as stated: the record names the root key "old-root", the
configuration names "new-root"; `loadDBKey` asks the provider to unwrap with "new-root" and
makes no call with the identifier stored in the record. -/
theorem loadDBKey_ignores_stored_root :
    rekeyedBoot.server.db.encryptionKeys.map (fun k => k.RootKeyID) = ["old-root"] ∧
      (loadDBKey asciiEnv rekeyedBoot).2.providerCalls =
        [.DecryptDataKey "new-root" [42, 43]] ∧
      ProviderCall.DecryptDataKey "old-root" [42, 43] ∉
        (loadDBKey asciiEnv rekeyedBoot).2.providerCalls := by
  decide

/-! ## Sequences of setup calls -/

theorem Setup_done (env : Env) (rCtx : RequestContext)
    (hdone : rCtx.DBTxn.settings.SetupRequired = false) :
    Setup env rCtx = (.error .ErrForbidden, rCtx) := by
  unfold Setup requireAuthorization data.GetSettings
  cases env.fault .GetSettings with
  | some err => rfl
  | none => simp [hdone]

/-- A successful `Setup` leaves the setup-required flag cleared. -/
theorem Setup_ok_pair (env : Env) (rCtx rCtx1 : RequestContext) (v : String × AccessKey)
    (hok : Setup env rCtx = (.ok v, rCtx1)) :
    rCtx1.DBTxn.settings.SetupRequired = false := by
  unfold Setup requireAuthorization at hok
  simp only at hok
  split at hok
  · simp at hok
  · split at hok
    · simp at hok
    · split at hok
      · simp at hok
      · split at hok
        · simp at hok
        · split at hok
          · simp at hok
          · rename_i db3 hsave
            unfold data.SaveSettings at hsave
            split at hsave
            · simp at hsave
            · have hr : rCtx1 = _ := (Prod.mk.inj hok).2.symm
              have hdb : db3 = _ := (Except.ok.inj hsave).symm
              rw [hr, hdb]

theorem Setup_ok_clears_flag (env : Env) (rCtx : RequestContext) (v : String × AccessKey)
    (hok : (Setup env rCtx).1 = .ok v) :
    (Setup env rCtx).2.DBTxn.settings.SetupRequired = false :=
  Setup_ok_pair env rCtx _ v (by rw [← hok])

theorem setupCalls_done (envs : List Env) (rCtx : RequestContext)
    (hdone : rCtx.DBTxn.settings.SetupRequired = false) :
    setupCalls envs rCtx = (List.replicate envs.length (.error .ErrForbidden), rCtx) := by
  induction envs with
  | nil => rfl
  | cons env rest ih =>
    simp only [setupCalls, Setup_done env rCtx hdone, ih, List.length_cons,
      List.replicate_succ]

theorem setupCalls_append (before later : List Env) (rCtx : RequestContext) :
    setupCalls (before ++ later) rCtx =
      ((setupCalls before rCtx).1 ++ (setupCalls later (setupCalls before rCtx).2).1,
        (setupCalls later (setupCalls before rCtx).2).2) := by
  induction before generalizing rCtx with
  | nil => rfl
  | cons env rest ih =>
    show setupCalls (env :: (rest ++ later)) rCtx = _
    simp only [setupCalls, ih]
    rfl

/-- C27: in any sequence of `Setup` calls against the same settings store, at most one call
succeeds: a successful `Setup` stores setup-required = false, so every later `Setup` returns
Forbidden and leaves the store as it is (no further admin machine or access key). -/
theorem setupCalls_at_most_one (envs : List Env) (rCtx : RequestContext) :
    ((setupCalls envs rCtx).1.filter succeeded).length ≤ 1 ∧
      ∀ before env later v, envs = before ++ env :: later →
        (Setup env (setupCalls before rCtx).2).1 = .ok v →
        (Setup env (setupCalls before rCtx).2).2.DBTxn.settings.SetupRequired = false ∧
          setupCalls later (Setup env (setupCalls before rCtx).2).2 =
            (List.replicate later.length (.error .ErrForbidden),
              (Setup env (setupCalls before rCtx).2).2) ∧
          (setupCalls envs rCtx).2 = (Setup env (setupCalls before rCtx).2).2 := by
  constructor
  · induction envs generalizing rCtx with
    | nil => simp [setupCalls]
    | cons env rest ih =>
      simp only [setupCalls]
      cases hres : (Setup env rCtx).1 with
      | error e =>
        simp only [List.filter_cons, succeeded, Bool.false_eq_true, if_false]
        exact ih _
      | ok v =>
        have hflag := Setup_ok_clears_flag env rCtx v hres
        rw [setupCalls_done rest _ hflag]
        simp [List.filter_cons, succeeded]
  · intro before env later v hsplit hok
    have hflag := Setup_ok_clears_flag env _ v hok
    have hlater := setupCalls_done later _ hflag
    refine ⟨hflag, hlater, ?_⟩
    rw [hsplit, setupCalls_append]
    simp only [setupCalls, hlater]

/-- Witness of C27: three setup calls on a registry that awaits its setup. -/
theorem setupCalls_at_most_one_witness :
    ((setupCalls [asciiEnv, asciiEnv, asciiEnv] setupPendingRequest).1.filter
        succeeded).length ≤ 1 ∧
      (setupCalls [asciiEnv, asciiEnv] (Setup asciiEnv setupPendingRequest).2 =
          (List.replicate 2 (.error .ErrForbidden), (Setup asciiEnv setupPendingRequest).2) ∧
        (setupCalls [asciiEnv, asciiEnv, asciiEnv] setupPendingRequest).2 =
          (Setup asciiEnv setupPendingRequest).2) :=
  have h := setupCalls_at_most_one [asciiEnv, asciiEnv, asciiEnv] setupPendingRequest
  ⟨h.1, (h.2 [] asciiEnv [asciiEnv, asciiEnv]
    ("", { ID := 2, IssuedFor := 1, Scopes := [], Name := "admin access key",
           IssuedForMachine := true, ExpiresAt := 9223372036854775807 })
    rfl rfl).2⟩

/-! ## Round trip of the custom claims -/

theorem bearerToken_bearer (raw : String) : bearerToken ("Bearer " ++ raw) = raw := by
  unfold bearerToken
  have hdata : ("Bearer " ++ raw).data = "Bearer ".data ++ raw.data := String.data_append _ _
  have hpre : "Bearer ".data.isPrefixOf ("Bearer " ++ raw).data = true := by
    rw [hdata, List.isPrefixOf_iff_prefix]
    exact List.prefix_append _ _
  rw [if_pos hpre, hdata]
  rfl

theorem headerGet_single (key value : String) :
    headerGet { Header := [(key, value)] } key = value := by
  simp [headerGet, List.lookup]

/-- C21: for every name and group list, a token signed with the private key that carries
those custom claims and an expiry in the future, presented as "Authorization: Bearer
<token>" together with the matching public key, makes `getClaims` return exactly that name
and group list with no error. That the keys match is the round trip of the token library:
the serialization parses to a token with the claims signed, whose signature verifies
under the public key. -/
theorem getClaims_roundtrip (jose : Jose) (signer : Signer) (priv pub : JSONWebKey)
    (name : String) (groups : List String) (expiry : Int)
    (hlibrary : ∃ tok,
      jose.ParseSigned (signer.CompactSerialize priv { Name := name, Groups := groups }
        expiry) = .ok tok ∧
      tok.Name = name ∧ tok.Groups = groups ∧ tok.Expiry = expiry ∧
      jose.VerifySignature pub tok = none)
    (hnonempty : signer.CompactSerialize priv { Name := name, Groups := groups } expiry ≠ "")
    (hfuture : jose.Now ≤ expiry) :
    getClaims jose
        { Header := [("Authorization",
            "Bearer " ++ signer.CompactSerialize priv { Name := name, Groups := groups }
              expiry)] } pub =
      .ok { Name := name, Groups := groups } := by
  obtain ⟨tok, hparse, hname, hgroups, hexp, hverify⟩ := hlibrary
  have hnot : ¬ jose.Now > tok.Expiry := by rw [hexp]; omega
  unfold getClaims
  simp only [headerGet_single, bearerToken_bearer]
  simp [hnonempty, hparse, hverify, hnot, hname, hgroups]

/-- Witness of C21: at second 50 the token of "test@example.com", which expires at second
100, is presented with the key "k1". -/
theorem getClaims_roundtrip_witness :
    getClaims earlyJose { Header := [("Authorization", "Bearer " ++ "good")] }
        { KeyID := "k1" } =
      .ok { Name := "test@example.com", Groups := ["developers"] } :=
  getClaims_roundtrip earlyJose testSigner { KeyID := "k1-private" } { KeyID := "k1" }
    "test@example.com" ["developers"] 100
    ⟨{ Name := "test@example.com", Groups := ["developers"], Expiry := 100, signature := [1] },
      rfl, rfl, rfl, rfl, rfl⟩
    (by decide) (by decide)

/-! ## Properties of the access key handlers -/

theorem stringsSplit_stringsJoin (perms : List String) (hne : perms ≠ [])
    (hspace : ∀ perm ∈ perms, ' ' ∉ perm.data) :
    stringsSplit (stringsJoin perms " ") ' ' = perms := by
  unfold stringsSplit stringsJoin
  have hsep : " ".data = [' '] := rfl
  rw [hsep, List.splitOn_intercalate _ ' ' ?_ ?_]
  · rw [List.map_map]
    have : (String.mk ∘ String.data) = id := by
      funext s; rfl
    rw [this, List.map_id]
  · intro l hl
    obtain ⟨perm, hperm, rfl⟩ := List.mem_map.1 hl
    exact hspace perm hperm
  · simpa using hne

/-- C28, as the code has it: after a successful `CreateAccessKey` handler, the entry a
successful `ListAccessKeys` handler returns for that key (the last listed) carries as
Permissions the split, on " ", of the space-joined list of the request; that is the list of
the request when the list is not empty and none of its strings contains a space. -/
theorem ListAccessKeys_permissions (env env1 : Env) (rCtx rCtx1 : RequestContext)
    (r : CreateAccessKeyRequest) (resp : CreateAccessKeyResponse)
    (listed : List APIAccessKey)
    (hcreate : API.CreateAccessKey env rCtx r = (.ok resp, rCtx1))
    (hlist : API.ListAccessKeys env1 rCtx1 = .ok listed) :
    ∃ entry, listed.getLast? = some entry ∧ entry.ID = resp.ID ∧ entry.Name = r.Name ∧
      entry.Permissions = stringsSplit (stringsJoin r.Permissions " ") ' ' ∧
      (r.Permissions ≠ [] → (∀ perm ∈ r.Permissions, ' ' ∉ perm.data) →
        entry.Permissions = r.Permissions) := by
  unfold API.CreateAccessKey access.CreateAccessKey data.CreateAccessKey at hcreate
  simp only at hcreate
  cases hfault : env.fault .CreateAccessKey with
  | some err => simp [hfault] at hcreate
  | none =>
    simp only [hfault, Prod.mk.injEq, Except.ok.injEq] at hcreate
    obtain ⟨hresp, hctx⟩ := hcreate
    unfold API.ListAccessKeys access.ListAccessKeys data.ListAccessKeys at hlist
    cases hfault1 : env1.fault .ListAccessKeys with
    | some err => simp [hfault1] at hlist
    | none =>
      simp only [hfault1, Except.ok.injEq] at hlist
      subst hlist
      subst hctx
      subst hresp
      let entry : APIAccessKey :=
        { ID := env.NewID 1, Name := r.Name,
          Permissions := stringsSplit (stringsJoin r.Permissions " ") ' ',
          Created := 0, Expires := env.Now 0 + r.Ttl }
      refine ⟨entry, ?_, rfl, rfl, rfl, ?_⟩
      · simp only [List.map_append, List.map_cons, List.map_nil]
        exact List.getLast?_concat _
      · intro hne hspace
        exact stringsSplit_stringsJoin r.Permissions hne hspace

/-- Witness of C28 as amended: a key created with the permissions "infra.user.read" and
"infra.user.create". -/
theorem ListAccessKeys_permissions_witness :
    ∃ entry,
      [({ ID := 2, Name := "ci", Permissions := ["infra.user.read", "infra.user.create"],
          Created := 0, Expires := 3600 } : APIAccessKey)].getLast? = some entry ∧
      entry.ID = 2 ∧ entry.Name = "ci" ∧
      entry.Permissions =
        stringsSplit (stringsJoin ["infra.user.read", "infra.user.create"] " ") ' ' ∧
      (["infra.user.read", "infra.user.create"] ≠ [] →
        (∀ perm ∈ ["infra.user.read", "infra.user.create"], ' ' ∉ perm.data) →
        entry.Permissions = ["infra.user.read", "infra.user.create"]) :=
  ListAccessKeys_permissions asciiEnv asciiEnv {}
    (API.CreateAccessKey asciiEnv {}
      { Name := "ci", Permissions := ["infra.user.read", "infra.user.create"],
        Ttl := 3600 }).2
    { Name := "ci", Permissions := ["infra.user.read", "infra.user.create"], Ttl := 3600 }
    { ID := 2, Created := 0, AccessKey := "" }
    [{ ID := 2, Name := "ci", Permissions := ["infra.user.read", "infra.user.create"],
       Created := 0, Expires := 3600 }]
    rfl rfl

/-- Counterexample to C28 as stated: a key created with the empty permission list is listed
with the one-element list [""], and a permission that contains a space is listed as two
permissions. -/
theorem ListAccessKeys_permissions_not_restored :
    API.ListAccessKeys asciiEnv
        (API.CreateAccessKey asciiEnv {} { Name := "ci", Permissions := [], Ttl := 3600 }).2 =
      .ok [{ ID := 2, Name := "ci", Permissions := [""], Created := 0, Expires := 3600 }] ∧
    ([""] : List String) ≠ [] ∧
    API.ListAccessKeys asciiEnv
        (API.CreateAccessKey asciiEnv {}
          { Name := "ci", Permissions := ["read write"], Ttl := 3600 }).2 =
      .ok [{ ID := 2, Name := "ci", Permissions := ["read", "write"], Created := 0,
             Expires := 3600 }] ∧
    (["read", "write"] : List String) ≠ ["read write"] :=
  ⟨rfl, by decide, rfl, by decide⟩

/-! ## Properties of `cleanupURL` -/

theorem dropWhile_eq_self_of_head (p : Char → Bool) (l : List Char)
    (h : ∀ c, l.head? = some c → p c = false) : l.dropWhile p = l := by
  cases l with
  | nil => rfl
  | cons a t => simp [List.dropWhile_cons, h a rfl]

theorem trimSpaceChars_eq_self (l : List Char)
    (hhead : ∀ c, l.head? = some c → isSpace c = false)
    (hlast : ∀ c, l.getLast? = some c → isSpace c = false) :
    trimSpaceChars l = l := by
  unfold trimSpaceChars
  rw [dropWhile_eq_self_of_head isSpace l hhead,
    dropWhile_eq_self_of_head isSpace l.reverse (by simpa [List.head?_reverse] using hlast),
    List.reverse_reverse]

theorem not_infix_of_cons (pat : List Char) (c : Char) (rest : List Char)
    (h : ¬ pat <:+: c :: rest) : ¬ pat <:+: rest :=
  fun hin => h (hin.trans (List.suffix_cons c rest).isInfix)

theorem isPrefixOf_eq_false_of_absent (pat l : List Char) (h : ¬ pat <:+: l) :
    pat.isPrefixOf l = false := by
  rw [Bool.eq_false_iff]
  intro hp
  exact h (List.isPrefixOf_iff_prefix.1 hp).isInfix

theorem dashAdminAux_eq_self (l : List Char) (h : ¬ "-admin.okta.com".data <:+: l) :
    dashAdminAux l = (l, false) := by
  induction l with
  | nil => rfl
  | cons c rest ih =>
    have hrest := ih (not_infix_of_cons _ c rest h)
    have hpre := isPrefixOf_eq_false_of_absent _ _ h
    unfold dashAdminAux
    simp only [hrest, hpre]
    by_cases hc : c = '\n'
    · simp [hc]
    · simp [hc]

theorem removeProtocolAux_eq_self (l : List Char) (h1 : ¬ "http://".data <:+: l)
    (h2 : ¬ "https://".data <:+: l) : removeProtocolAux 0 l = l := by
  induction l with
  | nil => rfl
  | cons c rest ih =>
    have hrest := ih (not_infix_of_cons _ c rest h1) (not_infix_of_cons _ c rest h2)
    unfold removeProtocolAux
    simp only [isPrefixOf_eq_false_of_absent _ _ h1, isPrefixOf_eq_false_of_absent _ _ h2, hrest]
    simp

/-- C29, as the code has it: cleaning a cleaned URL again changes nothing,
cleanupURL(cleanupURL(u)) = cleanupURL(u), whenever the first cleaning left nothing to
clean: cleanupURL(u) has no white space around it and contains neither "-admin.okta.com"
nor "http://" nor "https://". -/
theorem cleanupURL_idempotent_of_cleaned (u : String) (h : cleaned (cleanupURL u)) :
    cleanupURL (cleanupURL u) = cleanupURL u := by
  obtain ⟨hhead, hlast, hadmin, hhttp, hhttps⟩ := h
  generalize cleanupURL u = url at *
  unfold cleanupURL
  simp only [trimSpaceChars_eq_self url.data hhead hlast, dashAdminAux_eq_self url.data hadmin,
    removeProtocolAux_eq_self url.data hhttp hhttps]

/-- Witness of C29 as amended: an Okta admin URL with its protocol and surrounding blanks. -/
theorem cleanupURL_idempotent_of_cleaned_witness :
    cleanupURL (cleanupURL "  https://acme-admin.okta.com ") =
      cleanupURL "  https://acme-admin.okta.com " :=
  cleanupURL_idempotent_of_cleaned "  https://acme-admin.okta.com " (by
    have hclean : cleanupURL "  https://acme-admin.okta.com " = "acme.okta.com" := by decide
    rw [hclean]
    refine ⟨?_, ?_, by decide, by decide, by decide⟩
    · intro c hc
      have hc1 : c = 'a' := by
        have : some 'a' = some c := hc
        exact (Option.some.inj this).symm
      rw [hc1]; decide
    · intro c hc
      have hc1 : c = 'm' := by
        have : some 'm' = some c := hc
        exact (Option.some.inj this).symm
      rw [hc1]; decide)

/-- Counterexample to C29 as stated: removing the protocol from "hthttp://tp://a" joins the
pieces around it into "http://a", which a second cleaning turns into "a". -/
theorem cleanupURL_not_idempotent :
    cleanupURL "hthttp://tp://a" = "http://a" ∧
      cleanupURL (cleanupURL "hthttp://tp://a") = "a" ∧
      cleanupURL (cleanupURL "hthttp://tp://a") ≠ cleanupURL "hthttp://tp://a" := by
  decide

/-! ## Behaviour of the kubeconfig update -/

/-- C26, evaluated: for the destination named "infra:x" the update succeeds and the written
kubeconfig has no context at all, so the context "infra:infra:x" of the destination is
missing; and with the destination "a" the context "infra:infra:a", which belongs to no
destination of the list, is kept next to "infra:a". -/
theorem updateKubeconfig_infra_in_name :
    updateKubeconfig kubeTestEnv [{ Name := "infra:x" }] = .ok {} ∧
      (∃ cfg, updateKubeconfig kubeStaleEnv [{ Name := "a" }] = .ok cfg ∧
        cfg.Contexts.map Prod.fst = ["infra:infra:a", "infra:a"]) ∧
      stringsRemoveAll "infra:infra:x" "infra:" = "x" :=
  ⟨rfl, ⟨_, rfl, rfl⟩, by decide⟩

/-! ## Properties of the certificate cache -/

/-- C23: on a certificate cache for which no host has been provisioned, `Certificate` never
returns an error: for every server name it returns the certificate of the empty-hostname
sentinel, and the host list of the cache is then exactly [""]. -/
theorem Certificate_fresh_cache (caCertPEM caKeyPEM : String) (helloInfo : ClientHelloInfo) :
    ∃ cert, (Certificate (NewCertCache caCertPEM caKeyPEM) helloInfo).1 = .ok cert ∧
      (NewCertCache caCertPEM caKeyPEM).entries.lookup "" = some cert ∧
      cert.Issuer = caCertPEM ∧
      (Certificate (NewCertCache caCertPEM caKeyPEM) helloInfo).2.hosts = [""] := by
  refine ⟨{ DNSNames := [""], Issuer := caCertPEM, keyPair := 0 }, ?_, rfl, rfl, ?_⟩
  · unfold Certificate
    by_cases hname : helloInfo.ServerName = ""
    · simp [hname, NewCertCache, signLeaf, List.lookup]
    · have hne : ("" == helloInfo.ServerName) = false := by
        simpa using fun h => hname h.symm
      have hne2 : (helloInfo.ServerName == "") = false := by simpa using hname
      simp [NewCertCache, signLeaf, List.lookup, hne, hne2]
  · unfold Certificate
    by_cases hname : helloInfo.ServerName = ""
    · simp [hname, NewCertCache, signLeaf, List.lookup, CertCache.hosts]
    · have hne2 : (helloInfo.ServerName == "") = false := by simpa using hname
      simp [NewCertCache, signLeaf, List.lookup, hne2, CertCache.hosts]

end Infra
